import Mathlib

/-!
Verification development for the asana-analytics-hub synchronization engine.

The Python sources are shallowly embedded as executable Lean definitions:
  * the custom-field normalizers of asana_reporter/asana.py,
    asana_reporter/asana_io.py and src/get_completed_tasks.py;
  * the retry wrappers of both fetch modules;
  * the staged MERGE upsert of asana_reporter/bigquery.py together with the
    v_unique_tasks view of ensure_views and the backfill statements;
  * the fetch entrypoints' collection loop and save step;
  * the open-task sweep and snapshot append.

Floats are modelled as rationals (Rat), timestamps as naturals (larger =
later), nullable columns as Option.  Python string truthiness (empty string
is falsy) is modelled explicitly.  Where BigQuery row numbering breaks ties
nondeterministically, the model keeps the first row in input order, a fixed
deterministic refinement.
-/

/-! ## Basic string and number helpers -/

/-- Numeric value of a list of decimal digit characters. -/
def digitsToNat (ds : List Char) : Nat :=
  ds.foldl (fun a c => a * 10 + (c.toNat - 48)) 0

/-- Value of an integer part together with a (possibly empty) fraction-digit list. -/
def fracVal (n : Nat) (ds : List Char) : Rat :=
  (n : Rat) + (digitsToNat ds : Rat) / ((10 : Rat) ^ ds.length)

/-- Python str.lower() (ASCII case folding; other characters unchanged). -/
def toLowerStr (s : String) : String := String.mk (s.toList.map Char.toLower)

/-- Python str.strip(), whitespace from both ends. -/
def pyStrip (s : String) : String :=
  String.mk (((s.toList.dropWhile Char.isWhitespace).reverse.dropWhile Char.isWhitespace).reverse)

/-- Prefix test on character lists. -/
def isPrefixList : List Char → List Char → Bool
  | [], _ => true
  | _ :: _, [] => false
  | a :: as, b :: bs => a == b && isPrefixList as bs

/-- Infix test on character lists. -/
def isInfixList (sub : List Char) : List Char → Bool
  | [] => sub.isEmpty
  | c :: cs => isPrefixList sub (c :: cs) || isInfixList sub cs

/-- Python substring containment, sub in s. -/
def containsSub (s sub : String) : Bool := isInfixList sub.toList s.toList

/-- Python `a or b` over optional strings: empty or missing a falls through to b. -/
def orT (a b : Option String) : Option String :=
  match a with
  | some s => if s = "" then b else some s
  | none => b

/-- Truthiness filter: an empty string behaves like an absent one. -/
def truthyStr (a : Option String) : Option String :=
  match a with
  | some s => if s = "" then none else some s
  | none => none

/-- Python str.rstrip for a single character, here the percent sign. -/
def rstripPercent (s : String) : String :=
  String.mk (((s.toList.reverse).dropWhile (fun c => c = '%')).reverse)

/-- First match of the regex [0-9]+(\.[0-9]+)? in a character list, as used by
re.search in asana_reporter/asana.py: first maximal digit run, with a
fractional part only when a dot directly followed by a digit comes next. -/
def scanNumAsana : List Char → Option Rat
  | [] => none
  | c :: cs =>
    if c.isDigit then
      let d1 := (c :: cs).takeWhile Char.isDigit
      let rest := (c :: cs).dropWhile Char.isDigit
      match rest with
      | '.' :: r2 =>
        let d2 := r2.takeWhile Char.isDigit
        if d2.isEmpty then some ((digitsToNat d1 : Rat)) else some (fracVal (digitsToNat d1) d2)
      | _ => some ((digitsToNat d1 : Rat))
    else scanNumAsana cs

/-- Attempt to match the regex [-+]?[0-9]*\.?[0-9]+ (asana_io.py) at the head
of the list, after an optional sign has been removed; backtracking semantics
collapse to: maximal digit run, then a fraction when a dot directly followed
by a digit comes next ("12." therefore matches just "12"). -/
def matchUnsignedAt (cs : List Char) : Option Rat :=
  let d1 := cs.takeWhile Char.isDigit
  let rest := cs.dropWhile Char.isDigit
  if d1.isEmpty then
    match rest with
    | '.' :: r2 =>
      let d2 := r2.takeWhile Char.isDigit
      if d2.isEmpty then none else some (fracVal 0 d2)
    | _ => none
  else
    match rest with
    | '.' :: r2 =>
      let d2 := r2.takeWhile Char.isDigit
      if d2.isEmpty then some ((digitsToNat d1 : Rat)) else some (fracVal (digitsToNat d1) d2)
    | _ => some ((digitsToNat d1 : Rat))

/-- Attempt to match [-+]?[0-9]*\.?[0-9]+ at the head of the list. -/
def matchSignedAt (cs : List Char) : Option Rat :=
  match cs with
  | '-' :: r => (matchUnsignedAt r).map (fun v => -v)
  | '+' :: r => matchUnsignedAt r
  | _ => matchUnsignedAt cs

/-- Leftmost match of [-+]?[0-9]*\.?[0-9]+ (re.search of asana_io.py). -/
def scanNumIo : List Char → Option Rat
  | [] => none
  | c :: cs =>
    match matchSignedAt (c :: cs) with
    | some v => some v
    | none => scanNumIo cs

/-- Exponent part of a Python float literal: an optional sign and a nonempty
digit run consuming the whole remainder. -/
def parseExpPart (cs : List Char) : Option Int :=
  let (sgn, cs1) : Int × List Char :=
    match cs with
    | '-' :: r => (-1, r)
    | '+' :: r => (1, r)
    | _ => (1, cs)
  let ds := cs1.takeWhile Char.isDigit
  let rest := cs1.dropWhile Char.isDigit
  if ds.isEmpty || !rest.isEmpty then none else some (sgn * (digitsToNat ds : Int))

/-- Mantissa of a Python float literal: digits with an optional fraction, or a
fraction alone; returns the value and the unconsumed remainder. -/
def pyFloatCore (cs : List Char) : Option (Rat × List Char) :=
  let d1 := cs.takeWhile Char.isDigit
  let r1 := cs.dropWhile Char.isDigit
  if d1.isEmpty then
    match r1 with
    | '.' :: r2 =>
      let d2 := r2.takeWhile Char.isDigit
      let r3 := r2.dropWhile Char.isDigit
      if d2.isEmpty then none else some (fracVal 0 d2, r3)
    | _ => none
  else
    match r1 with
    | '.' :: r2 =>
      let d2 := r2.takeWhile Char.isDigit
      let r3 := r2.dropWhile Char.isDigit
      some (fracVal (digitsToNat d1) d2, r3)
    | _ => some ((digitsToNat d1 : Rat), r1)

/-- Application of a base-ten exponent to a rational. -/
def applyExp (v : Rat) (e : Int) : Rat :=
  if 0 ≤ e then v * (10 : Rat) ^ e.toNat else v / (10 : Rat) ^ (-e).toNat

/-- Python float(str) for finite decimal and scientific notation (the special
spellings inf and nan and digit underscores are not modelled; the parsers
below only reach this on percent-rate strings). -/
def pyFloat (s : String) : Option Rat :=
  let cs := ((s.toList.dropWhile Char.isWhitespace).reverse.dropWhile Char.isWhitespace).reverse
  let (neg, cs1) : Bool × List Char :=
    match cs with
    | '-' :: r => (true, r)
    | '+' :: r => (false, r)
    | _ => (false, cs)
  match pyFloatCore cs1 with
  | none => none
  | some (v, rest) =>
    let withExp : Option Rat :=
      match rest with
      | [] => some v
      | 'e' :: re => (parseExpPart re).map (applyExp v)
      | 'E' :: re => (parseExpPart re).map (applyExp v)
      | _ => none
    withExp.map (fun x => if neg then -x else x)

/-! ## Raw custom fields -/

/-- An enum payload of a custom field (only the name is ever read). -/
structure EnumVal where
  name : Option String
deriving DecidableEq

/-- The nested value dict some API variants return. -/
structure ValueDict where
  number_value : Option Rat
  text_value : Option String
  enum_value : Option EnumVal
deriving DecidableEq

/-- A raw custom field as the normalizers read it. -/
structure RawField where
  name : String
  number_value : Option Rat
  text_value : Option String
  display_value : Option String
  enum_value : Option EnumVal
  value : Option ValueDict
deriving DecidableEq

/-- Effective number_value: top level first, then the nested value dict
(asana_reporter/asana.py lines 66-71). -/
def effNumber (f : RawField) : Option Rat :=
  match f.number_value with
  | some v => some v
  | none => f.value.bind (fun d => d.number_value)

/-- Effective text_value: top level first, then the nested value dict. -/
def effText (f : RawField) : Option String :=
  match f.text_value with
  | some s => some s
  | none => f.value.bind (fun d => d.text_value)

/-- Effective enum name: top-level enum_value first, then the nested one;
the name is read only when the enum payload carries one. -/
def effEnumName (f : RawField) : Option String :=
  (match f.enum_value with
   | some e => some e
   | none => f.value.bind (fun d => d.enum_value)).bind (fun e => e.name)

/-- The candidate string text_value or display_value or enum_name with Python
truthiness (an empty string falls through, and a wholly empty candidate is
treated as absent). -/
def candidateText (f : RawField) : Option String :=
  truthyStr (orT (effText f) (orT f.display_value (effEnumName f)))

/-! ## The asana.py normalizer -/

/-- Estimated-effort name test of asana.py (exact list plus two substring
combinations, on the lowered name). -/
def isEstNameAsana (n : String) : Bool :=
  ["estimated time", "estimated_time", "見積時間", "見積もり時間", "estimate", "予定時間"].contains n
  || (containsSub n "予定" && containsSub n "時間")
  || (containsSub n "estimate" && containsSub n "time")

/-- Estimated-effort extraction from a text candidate: first numeric
substring, with 分 keeping minutes, h or 時間 converting hours to minutes,
and no marker defaulting to minutes (asana.py lines 92-106). -/
def estFromText (s : String) : Option Rat :=
  match scanNumAsana s.toList with
  | none => none
  | some v =>
    if containsSub s "分" then some v
    else if containsSub (toLowerStr s) "h" || containsSub s "時間" then some (v * 60)
    else some v

/-- Achievement-rate extraction from a text candidate: a percent suffix is
stripped and the value divided by 100, otherwise a full float parse
(asana.py lines 128-135); a parse failure leaves the rate unchanged. -/
def rateFromText (s : String) : Option Rat :=
  if s.toList.getLast? = some '%' then (pyFloat (rstripPercent s)).map (fun v => v / 100)
  else pyFloat s

/-- Accumulator of the asana.py field scan. -/
structure AsanaAcc where
  est : Option Rat
  araw : Option Rat
  rate : Option Rat
deriving DecidableEq

/-- One field of the asana.py scan (the if/elif chain of lines 83-137). -/
def asanaStep (acc : AsanaAcc) (f : RawField) : AsanaAcc :=
  let n := toLowerStr f.name
  if isEstNameAsana n then
    match effNumber f with
    | some v => { acc with est := some v }
    | none =>
      match candidateText f with
      | some c =>
        match estFromText (pyStrip c) with
        | some v => { acc with est := some v }
        | none => acc
      | none => acc
  else if n = "actual_time_raw" || n = "actual time raw" then
    match effNumber f with
    | some v => { acc with araw := some v }
    | none => acc
  else if n = "actual time" || n = "actual_time" || n = "実績時間" then
    match effNumber f with
    | some v => { acc with araw := some (v * 60) }
    | none => acc
  else if n = "時間達成率" || n = "achievement_rate" || containsSub n "達成率" then
    match effNumber f with
    | some v => { acc with rate := some v }
    | none =>
      match candidateText f with
      | some c =>
        match rateFromText (pyStrip c) with
        | some v => { acc with rate := some v }
        | none => acc
      | none => acc
  else acc

/-- Achievement-rate fallback of asana.py lines 139-155: when a rate and an
estimate are known and no direct actual value was found, a rate in (10, 1000]
is divided by 100, and any positive resulting rate divides the estimate. -/
def rateFallback (est araw rate : Option Rat) : Option Rat :=
  match rate, est, araw with
  | some r0, some e, none =>
    let r := if (10 : Rat) < r0 ∧ r0 ≤ 1000 then r0 / 100 else r0
    if 0 < r then some (e / r) else none
  | _, _, _ => araw

/-- Result triple of a normalizer: estimated minutes, actual hours, actual minutes. -/
structure ParseResult where
  estimated_time : Option Rat
  actual_time : Option Rat
  actual_time_raw : Option Rat
deriving DecidableEq

/-- The _parse_custom_fields normalizer of asana_reporter/asana.py. -/
def parse_custom_fields_asana (fields : List RawField) : ParseResult :=
  let a := fields.foldl asanaStep ⟨none, none, none⟩
  match rateFallback a.est a.araw a.rate with
  | none => ⟨a.est, none, none⟩
  | some v => ⟨a.est, some (v / 60), some v⟩

/-! ## The asana_io.py normalizer -/

/-- The parse_numeric_from_field helper of asana_io.py: number_value first;
otherwise the first numeric substring of text_value or display_value, with
h or 時間 meaning hours, 分 or min meaning minutes, and minutes by default. -/
def parse_numeric_from_field (f : RawField) : Option Rat :=
  match f.number_value with
  | some v => some v
  | none =>
    match truthyStr (orT f.text_value f.display_value) with
    | none => none
    | some t =>
      match scanNumIo t.toList with
      | none => none
      | some v =>
        if containsSub (toLowerStr t) "h" || containsSub t "時間" then some (v * 60)
        else if containsSub t "分" || containsSub (toLowerStr t) "min" then some v
        else some v

/-- Estimated-effort name keywords of asana_io.py. -/
def estKeywordsIo : List String :=
  ["estimated time", "estimated_time", "estimate", "見積", "見積もり"]

/-- Actual-effort name keywords of asana_io.py. -/
def actKeywordsIo : List String :=
  ["actual time", "actual_time", "spent time", "tracked time", "実績", "実働", "工数", "稼働"]

/-- One field of the asana_io.py scan; on an estimated-name match whose value
does not parse, the actual-name branch is still tried (no continue fires). -/
def ioStep (acc : Option Rat × Option Rat) (f : RawField) : Option Rat × Option Rat :=
  let n := toLowerStr f.name
  if estKeywordsIo.any (fun k => containsSub n k) then
    match parse_numeric_from_field f with
    | some v => (some v, acc.2)
    | none =>
      if actKeywordsIo.any (fun k => containsSub n k) then
        match parse_numeric_from_field f with
        | some v => (acc.1, some v)
        | none => acc
      else acc
  else if actKeywordsIo.any (fun k => containsSub n k) then
    match parse_numeric_from_field f with
    | some v => (acc.1, some v)
    | none => acc
  else acc

/-- The _parse_custom_fields normalizer of asana_reporter/asana_io.py
(it has no achievement-rate handling at all). -/
def parse_custom_fields_io (fields : List RawField) : ParseResult :=
  let p := fields.foldl ioStep (none, none)
  ⟨p.1, p.2.map (fun v => v / 60), p.2⟩

/-! ## The legacy src/get_completed_tasks.py field handling -/

/-- Accumulated per-task time fields of the legacy script. -/
structure LegacyTaskState where
  estimated_time : Option Rat
  actual_time : Option Rat
  actual_time_raw : Option Rat
  has_actual_time_raw : Bool
deriving DecidableEq

/-- One field of the legacy scan (get_completed_tasks.py lines 39-64): exact
names, number_value only, and the achievement rate multiplies the estimate
without any percent normalization. -/
def legacyStep (acc : LegacyTaskState) (f : RawField) : LegacyTaskState :=
  if f.name == "Estimated time" && f.number_value.isSome then
    { acc with estimated_time := f.number_value }
  else if f.name == "actual_time_raw" && f.number_value.isSome then
    { acc with
        actual_time_raw := f.number_value
        actual_time := f.number_value.map (fun v => v / 60)
        has_actual_time_raw := true }
  else if f.name == "時間達成率" && f.number_value.isSome && !acc.has_actual_time_raw then
    match acc.estimated_time, f.number_value with
    | some e, some r =>
      if 0 < r then
        { acc with actual_time_raw := some (e * r), actual_time := some (e * r / 60) }
      else acc
    | _, _ => acc
  else acc

/-- The legacy time-field extraction over a task's custom fields. -/
def legacy_time_fields (fields : List RawField) : LegacyTaskState :=
  fields.foldl legacyStep ⟨none, none, none, false⟩

/-! ## The durable store, the staged MERGE and the latest view

A physical completed_tasks row (schema of ensure_table_exists with the
later ALTER additions): task_id and inserted_at are REQUIRED, everything
else NULLABLE.  Timestamps are naturals, larger meaning later. -/

/-- A physical row of the completed_tasks table. -/
structure Row where
  task_id : String
  task_name : Option String
  project_id : Option String
  project_name : Option String
  project_gid : Option String
  assignee_name : Option String
  assignee_gid : Option String
  completed_at : Option Nat
  created_at : Option Nat
  due_on : Option Nat
  modified_at : Option Nat
  inserted_at : Nat
  estimated_time : Option Rat
  actual_time : Option Rat
  actual_time_raw : Option Rat
  estimated_minutes : Option Rat
  actual_minutes : Option Rat
  is_subtask : Option Bool
  parent_task_id : Option String
deriving DecidableEq

/-- A batch record as built by the fetchers (a task dict before the
Reconciler stamps inserted_at); project_gid, assignee_gid and the minutes
columns are optional because the older fetcher does not emit them. -/
structure TaskRec where
  task_id : String
  task_name : String
  project_id : String
  project_name : String
  project_gid : Option String
  assignee_name : Option String
  assignee_gid : Option String
  completed_at : Option Nat
  created_at : Option Nat
  due_on : Option Nat
  modified_at : Option Nat
  estimated_time : Option Rat
  actual_time : Option Rat
  actual_time_raw : Option Rat
  estimated_minutes : Option Rat
  actual_minutes : Option Rat
  is_subtask : Bool
  parent_task_id : Option String
deriving DecidableEq

/-- Staging of a batch record: the row it loads into the staging table once
inserted_at is stamped (upsert_tasks_via_merge step 2). -/
def toRow (now : Nat) (t : TaskRec) : Row :=
  { task_id := t.task_id
    task_name := some t.task_name
    project_id := some t.project_id
    project_name := some t.project_name
    project_gid := t.project_gid
    assignee_name := t.assignee_name
    assignee_gid := t.assignee_gid
    completed_at := t.completed_at
    created_at := t.created_at
    due_on := t.due_on
    modified_at := t.modified_at
    inserted_at := now
    estimated_time := t.estimated_time
    actual_time := t.actual_time
    actual_time_raw := t.actual_time_raw
    estimated_minutes := t.estimated_minutes
    actual_minutes := t.actual_minutes
    is_subtask := some t.is_subtask
    parent_task_id := t.parent_task_id }

/-- SQL COALESCE on two nullable values. -/
def coalesce {α : Type} (a b : Option α) : Option α :=
  match a with
  | some v => some v
  | none => b

/-- The WHEN MATCHED UPDATE of the MERGE statement: every listed column is
overwritten from the source row, with COALESCE keeping the target's
project_gid, assignee_gid, estimated_minutes and actual_minutes when the
source lacks them; task_id is the join key and stays. -/
def updateRow (t s : Row) : Row :=
  { task_id := t.task_id
    task_name := s.task_name
    project_id := s.project_id
    project_name := s.project_name
    project_gid := coalesce s.project_gid t.project_gid
    assignee_name := s.assignee_name
    assignee_gid := coalesce s.assignee_gid t.assignee_gid
    completed_at := s.completed_at
    created_at := s.created_at
    due_on := s.due_on
    modified_at := s.modified_at
    inserted_at := s.inserted_at
    estimated_time := s.estimated_time
    actual_time := s.actual_time
    actual_time_raw := s.actual_time_raw
    estimated_minutes := coalesce s.estimated_minutes t.estimated_minutes
    actual_minutes := coalesce s.actual_minutes t.actual_minutes
    is_subtask := s.is_subtask
    parent_task_id := s.parent_task_id }

/-- Effect of one source row of the MERGE: matched target rows are updated
in place, an unmatched source row is inserted. -/
def applyMerge (store : List Row) (s : Row) : List Row :=
  if store.any (fun t => t.task_id == s.task_id) then
    store.map (fun t => if t.task_id == s.task_id then updateRow t s else t)
  else store ++ [s]

/-- Ranking key of the staging QUALIFY clause, COALESCE(modified_at,
inserted_at), where inserted_at is the shared staging timestamp. -/
def mergeKey (now : Nat) (r : TaskRec) : Nat := r.modified_at.getD now

/-- The staging row kept for a task_id by QUALIFY ROW_NUMBER() = 1: the one
maximizing COALESCE(modified_at, inserted_at); inserted_at ties within one
staging load, so among equal keys the first row in batch order is kept (the
deterministic refinement of an unordered tie). -/
def bestFor (now : Nat) (batch : List TaskRec) (tid : String) : Option TaskRec :=
  (batch.filter (fun r => r.task_id == tid)).foldl
    (fun acc r =>
      match acc with
      | none => some r
      | some b => if mergeKey now b < mergeKey now r then some r else some b)
    none

/-- First occurrences of a list of ids, in order. -/
def firstOccsAux (seen : List String) : List String → List String
  | [] => []
  | t :: ts => if seen.contains t then firstOccsAux seen ts else t :: firstOccsAux (t :: seen) ts

/-- Distinct ids of a list, keeping first-occurrence order. -/
def firstOccs (l : List String) : List String := firstOccsAux [] l

/-- The deduplicated staging relation the MERGE consumes: one stamped row per
distinct task_id of the batch. -/
def stagedMergeSource (now : Nat) (batch : List TaskRec) : List Row :=
  (firstOccs (batch.map (fun r => r.task_id))).filterMap
    (fun tid => (bestFor now batch tid).map (toRow now))

/-- The upsert_tasks_via_merge operation of asana_reporter/bigquery.py:
stage the batch with a fresh inserted_at, deduplicate per task_id, and MERGE
into the store (update matched task_ids, insert new ones). -/
def upsert_tasks_via_merge (store : List Row) (batch : List TaskRec) (now : Nat) : List Row :=
  (stagedMergeSource now batch).foldl applyMerge store

/-! ## The v_unique_tasks view (ensure_views) -/

/-- Strict order on nullable timestamps: NULL ranks below every value, as a
DESC order in BigQuery puts NULLs last. -/
def optLt (a b : Option Nat) : Bool :=
  match a, b with
  | none, none => false
  | none, some _ => true
  | some _, none => false
  | some x, some y => x < y

/-- Does row r outrank row b under ORDER BY modified_at DESC, inserted_at
DESC (strictly)? -/
def viewBetter (r b : Row) : Bool :=
  optLt b.modified_at r.modified_at
  || (b.modified_at == r.modified_at && b.inserted_at < r.inserted_at)

/-- Fold step choosing the rank-1 row; ties keep the earlier row. -/
def pickTop (b : Option Row) (r : Row) : Option Row :=
  match b with
  | none => some r
  | some b0 => if viewBetter r b0 then some r else some b0

/-- The rows the view draws from: completed_at IS NOT NULL. -/
def completedRows (store : List Row) : List Row :=
  store.filter (fun r => r.completed_at.isSome)

/-- The rank-1 completed row of a task_id, if any. -/
def latestFor (store : List Row) (tid : String) : Option Row :=
  ((completedRows store).filter (fun r => r.task_id == tid)).foldl pickTop none

/-- A row of v_unique_tasks (SELECT * EXCEPT(rn), with TRIM(project_name)). -/
structure ViewRow where
  task_id : String
  task_name : Option String
  parent_task_id : Option String
  project_name : Option String
  project_gid : Option String
  assignee_name : Option String
  assignee_gid : Option String
  completed_at : Option Nat
  modified_at : Option Nat
  inserted_at : Nat
  estimated_time : Option Rat
  actual_time : Option Rat
  actual_time_raw : Option Rat
  estimated_minutes : Option Rat
  actual_minutes : Option Rat
  is_subtask : Option Bool
deriving DecidableEq

/-- Projection of a physical row to the view's column list. -/
def toViewRow (r : Row) : ViewRow :=
  { task_id := r.task_id
    task_name := r.task_name
    parent_task_id := r.parent_task_id
    project_name := r.project_name.map pyStrip
    project_gid := r.project_gid
    assignee_name := r.assignee_name
    assignee_gid := r.assignee_gid
    completed_at := r.completed_at
    modified_at := r.modified_at
    inserted_at := r.inserted_at
    estimated_time := r.estimated_time
    actual_time := r.actual_time
    actual_time_raw := r.actual_time_raw
    estimated_minutes := r.estimated_minutes
    actual_minutes := r.actual_minutes
    is_subtask := r.is_subtask }

/-- The v_unique_tasks view: per task_id with a completed row, the rank-1 row
under (modified_at DESC, inserted_at DESC), restricted to completed rows. -/
def v_unique_tasks (store : List Row) : List ViewRow :=
  (firstOccs ((completedRows store).map (fun r => r.task_id))).filterMap
    (fun tid => (latestFor store tid).map toViewRow)

/-- Forgetting the inserted_at bookkeeping column of a view row. -/
def eraseIns (v : ViewRow) : ViewRow := { v with inserted_at := 0 }

/-- Restamping a physical row's inserted_at. -/
def setIns (n : Nat) (r : Row) : Row := { r with inserted_at := n }

/-- A store holds at most one physical row per task_id (the invariant
MERGE-only writes maintain; BigQuery MERGE errors on duplicate matches). -/
def uniqueTids (store : List Row) : Prop :=
  (store.map (fun r => r.task_id)).Nodup

/-! ## The backfill statements (backfill_minutes_columns) -/

/-- Row effect of the three sequential backfill UPDATEs: estimated_minutes
from estimated_time when NULL, actual_minutes from actual_time_raw when
NULL, else from actual_time (hours) times 60. -/
def backfillRow (r : Row) : Row :=
  let r1 := if r.estimated_minutes.isNone && r.estimated_time.isSome then
      { r with estimated_minutes := r.estimated_time } else r
  let r2 := if r1.actual_minutes.isNone && r1.actual_time_raw.isSome then
      { r1 with actual_minutes := r1.actual_time_raw } else r1
  if r2.actual_minutes.isNone && r2.actual_time.isSome then
    { r2 with actual_minutes := r2.actual_time.map (fun v => v * 60) } else r2

/-- The backfill_minutes_columns operation: each UPDATE touches every row
independently, so the sequence acts row by row. -/
def backfill_minutes_columns (store : List Row) : List Row :=
  store.map backfillRow

/-! ## API errors and the two retry wrappers -/

/-- An Asana ApiException as the retry wrappers inspect it: an HTTP status,
the legacy code attribute, and the parsed Retry-After header (none models a
parse failure; a missing header parses to 0 via the '0' default). -/
structure ApiErr where
  status : Option Nat
  code : Option Nat
  retryAfter : Option Int
deriving DecidableEq

/-- Status extraction of asana.py: getattr(e, 'status', None) or getattr(e,
'code', None), with Python falsiness sending a 0 status to the code. -/
def effStatusPy (e : ApiErr) : Option Nat :=
  match e.status with
  | some s => if s = 0 then e.code else some s
  | none => e.code

/-- Retryable statuses of asana.py: 429, 500, 502, 503, 504. -/
def retryablePy (s : Option Nat) : Bool :=
  [some 429, some 500, some 502, some 503, some 504].contains s

/-- Backoff delay of asana.py: base 1.0 times 2^(attempt-1), scaled by the
jitter factor 0.8 + 0.4 * random(). -/
def pySleep (jitter : Nat → Rat) (attempt : Nat) : Rat :=
  (1 : Rat) * (2 : Rat) ^ (attempt - 1) * (8/10 + 4/10 * jitter attempt)

/-- Loop of _with_retry in asana.py, for attempt in range(1, 7): raise when
the status is not retryable or the attempt cap is reached, else sleep and
retry; left is the number of retries remaining, 6 - attempt.  The call
oracle resp is indexed by 0-based call number; the result carries the number
of calls made and the sleeps taken. -/
def asanaRetryGo {α : Type} (resp : Nat → Except ApiErr α) (jitter : Nat → Rat)
    (attempt left : Nat) (sleeps : List Rat) : Except ApiErr α × Nat × List Rat :=
  match resp (attempt - 1) with
  | .ok a => (.ok a, attempt, sleeps.reverse)
  | .error e =>
    if !retryablePy (effStatusPy e) then (.error e, attempt, sleeps.reverse)
    else
      match left with
      | 0 => (.error e, attempt, sleeps.reverse)
      | left2 + 1 => asanaRetryGo resp jitter (attempt + 1) left2 (pySleep jitter attempt :: sleeps)

/-- The _with_retry wrapper of asana_reporter/asana.py (max_attempts 6). -/
def asana_with_retry {α : Type} (resp : Nat → Except ApiErr α) (jitter : Nat → Rat) :
    Except ApiErr α × Nat × List Rat :=
  asanaRetryGo resp jitter 1 5 []

/-- Retryable statuses of the asana_io.py wrappers: 429, 500, 502, 503
(504 is absent there). -/
def retryableIo (s : Option Nat) : Bool :=
  [some 429, some 500, some 502, some 503].contains s

/-- Delay of the asana_io.py wrapper: a positive parsed Retry-After wins,
else min(30, 2^attempts). -/
def ioSleep (e : ApiErr) (attempts : Nat) : Int :=
  match e.retryAfter with
  | some k => if 0 < k then k else min (30 : Int) ((2 : Int) ^ attempts)
  | none => min (30 : Int) ((2 : Int) ^ attempts)

/-- Loop of the local _with_retry in asana_io.py: attempts counts failures so
far; after a retryable failure the counter is bumped and the call re-raised
once attempts exceeds 5, so at most 6 calls happen; non-retryable statuses
(404 included) are re-raised at once. -/
def ioRetryGo {α : Type} (resp : Nat → Except ApiErr α)
    (attempts left : Nat) (sleeps : List Int) : Except ApiErr α × Nat × List Int :=
  match resp attempts with
  | .ok a => (.ok a, attempts + 1, sleeps.reverse)
  | .error e =>
    if retryableIo e.status then
      match left with
      | 0 => (.error e, attempts + 1, sleeps.reverse)
      | left2 + 1 => ioRetryGo resp (attempts + 1) left2 (ioSleep e attempts :: sleeps)
    else (.error e, attempts + 1, sleeps.reverse)

/-- The local _with_retry wrapper of asana_reporter/asana_io.py. -/
def asana_io_with_retry {α : Type} (resp : Nat → Except ApiErr α) :
    Except ApiErr α × Nat × List Int :=
  ioRetryGo resp 0 5 []

/-! ## Raw tasks and the asana_io completed-task fetch -/

/-- An assignee payload. -/
structure Assignee where
  gid : String
  name : String
deriving DecidableEq

/-- A raw task or subtask as the fetchers read it. -/
structure RawTask where
  gid : String
  name : String
  completed : Bool
  completed_at : Option Nat
  created_at : Option Nat
  due_on : Option Nat
  modified_at : Option Nat
  assignee : Option Assignee
  num_subtasks : Nat
  actual_time_minutes : Option Rat
  custom_fields : List RawField
deriving DecidableEq

/-- A project identifier/name pair. -/
structure ProjectInfo where
  gid : String
  name : String
deriving DecidableEq

/-- The fetch window selected from the request options. -/
inductive FetchWindow
  | sweep (modified_since : String)
  | incremental (modified_since : String)
  | fullFetch (completed_since : String)
deriving DecidableEq

/-- Window selection of get_completed_tasks_for_project (asana_io.py lines
134-145), with Python truthiness on the option strings. -/
def chooseWindow (modified_since : Option String) (force_parent_sweep : Bool)
    (completed_since_override : Option String) : FetchWindow :=
  if force_parent_sweep then
    .sweep ((truthyStr completed_since_override).getD "1970-01-01T00:00:00.000Z")
  else
    match truthyStr modified_since with
    | some m => .incremental m
    | none => .fullFetch ((truthyStr completed_since_override).getD "2023-01-01T00:00:00.000Z")

/-- Override of the parsed time fields by a numeric actual_time_minutes
payload (asana_io.py lines 202-205 and 233-236). -/
def applyAtmOverride (tf : ParseResult) (atm : Option Rat) : ParseResult :=
  match atm with
  | some v => { tf with actual_time_raw := some v, actual_time := some (v / 60) }
  | none => tf

/-- The formatted_subtask record of asana_io.py lines 207-226. -/
def formatSubtaskIo (project : ProjectInfo) (parent_gid : String) (s : RawTask) : TaskRec :=
  let tf := applyAtmOverride (parse_custom_fields_io s.custom_fields) s.actual_time_minutes
  { task_id := s.gid
    task_name := "[Subtask] " ++ s.name
    project_id := project.gid
    project_name := project.name
    project_gid := some project.gid
    assignee_name := s.assignee.map (fun a => a.name)
    assignee_gid := s.assignee.map (fun a => a.gid)
    completed_at := s.completed_at
    created_at := s.created_at
    due_on := s.due_on
    modified_at := s.modified_at
    estimated_time := tf.estimated_time
    actual_time := tf.actual_time
    actual_time_raw := tf.actual_time_raw
    estimated_minutes := tf.estimated_time
    actual_minutes := tf.actual_time_raw
    is_subtask := true
    parent_task_id := some parent_gid }

/-- The formatted_task record of asana_io.py lines 238-257. -/
def formatParentIo (project : ProjectInfo) (t : RawTask) : TaskRec :=
  let tf := applyAtmOverride (parse_custom_fields_io t.custom_fields) t.actual_time_minutes
  { task_id := t.gid
    task_name := t.name
    project_id := project.gid
    project_name := project.name
    project_gid := some project.gid
    assignee_name := t.assignee.map (fun a => a.name)
    assignee_gid := t.assignee.map (fun a => a.gid)
    completed_at := t.completed_at
    created_at := t.created_at
    due_on := t.due_on
    modified_at := t.modified_at
    estimated_time := tf.estimated_time
    actual_time := tf.actual_time
    actual_time_raw := tf.actual_time_raw
    estimated_minutes := tf.estimated_time
    actual_minutes := tf.actual_time_raw
    is_subtask := false
    parent_task_id := none }

/-- Rows contributed by one listed task: completed (or, when requested,
incomplete) subtasks first, then the parent itself when completed; a subtask
fetch failure propagates (it is not caught in this function). -/
def taskRowsIo (subResp : String → Nat → Except ApiErr (List RawTask))
    (project : ProjectInfo) (inc : Bool) (t : RawTask) : Except ApiErr (List TaskRec) :=
  let subPart : Except ApiErr (List TaskRec) :=
    if 0 < t.num_subtasks then
      match (asana_io_with_retry (subResp t.gid)).1 with
      | .error e => .error e
      | .ok subs => .ok (subs.filterMap (fun s =>
          if (s.completed && s.completed_at.isSome) || inc then
            some (formatSubtaskIo project t.gid s)
          else none))
    else .ok []
  match subPart with
  | .error e => .error e
  | .ok rows =>
    .ok (rows ++ (if t.completed && t.completed_at.isSome then [formatParentIo project t] else []))

/-- Processing of the listed tasks in order. -/
def processTasksIo (subResp : String → Nat → Except ApiErr (List RawTask))
    (project : ProjectInfo) (inc : Bool) : List RawTask → Except ApiErr (List TaskRec)
  | [] => .ok []
  | t :: ts =>
    match taskRowsIo subResp project inc t with
    | .error e => .error e
    | .ok rows =>
      match processTasksIo subResp project inc ts with
      | .error e => .error e
      | .ok rest => .ok (rows ++ rest)

/-- The get_completed_tasks_for_project function of asana_io.py: the task
listing goes through the retry wrapper, a 404 skips the project with an
empty result, any other error propagates. -/
def get_completed_tasks_for_project
    (tasksResp : FetchWindow → Nat → Except ApiErr (List RawTask))
    (subResp : String → Nat → Except ApiErr (List RawTask))
    (project : ProjectInfo)
    (modified_since : Option String) (force_parent_sweep : Bool)
    (completed_since_override : Option String) (include_incomplete_subtasks : Bool) :
    Except ApiErr (List TaskRec) :=
  let w := chooseWindow modified_since force_parent_sweep completed_since_override
  match (asana_io_with_retry (tasksResp w)).1 with
  | .error e => if e.status == some 404 then .ok [] else .error e
  | .ok tasks => processTasksIo subResp project include_incomplete_subtasks tasks

/-! ## The open-task sweep and the snapshot store -/

/-- A row of the open_tasks_snapshot table as the sweep builds it (the
snapshot_date/snapshot_at stamps are added by the out-of-scope caller). -/
structure OpenRow where
  task_id : String
  task_name : Option String
  project_gid : String
  project_name : String
  assignee_gid : Option String
  assignee_name : Option String
  due_on : Option Nat
  created_at : Option Nat
  modified_at : Option Nat
  is_overdue : Bool
  has_time_fields : Bool
deriving DecidableEq

/-- Python bool() truthiness of a nullable float: 0.0 and None are falsy. -/
def truthyRat (o : Option Rat) : Bool :=
  match o with
  | some v => v != 0
  | none => false

/-- The has_time_fields flag: bool(parsed estimated or parsed actual), with
the normalizer run as in the source. -/
def hasTimeFields (cf : List RawField) : Bool :=
  truthyRat (parse_custom_fields_io cf).estimated_time
  || truthyRat (parse_custom_fields_io cf).actual_time_raw

/-- The open-parent row of asana_io.py lines 326-338; is_overdue is the
literal False. -/
def parentOpenRow (project : ProjectInfo) (t : RawTask) : OpenRow :=
  { task_id := t.gid
    task_name := some t.name
    project_gid := project.gid
    project_name := project.name
    assignee_gid := t.assignee.map (fun a => a.gid)
    assignee_name := t.assignee.map (fun a => a.name)
    due_on := t.due_on
    created_at := t.created_at
    modified_at := t.modified_at
    is_overdue := false
    has_time_fields := hasTimeFields t.custom_fields }

/-- The open-subtask row of asana_io.py lines 355-367; is_overdue is the
literal False. -/
def subOpenRow (project : ProjectInfo) (s : RawTask) : OpenRow :=
  { task_id := s.gid
    task_name := some ("[Subtask] " ++ s.name)
    project_gid := project.gid
    project_name := project.name
    assignee_gid := s.assignee.map (fun a => a.gid)
    assignee_name := s.assignee.map (fun a => a.name)
    due_on := s.due_on
    created_at := s.created_at
    modified_at := s.modified_at
    is_overdue := false
    has_time_fields := hasTimeFields s.custom_fields }

/-- Rows contributed by one listed task to the open sweep: the parent when
incomplete, then its incomplete subtasks; a subtask fetch failure is caught
and yields no subtask rows. -/
def openRowsForTask (subResp : String → Nat → Except ApiErr (List RawTask))
    (project : ProjectInfo) (t : RawTask) : List OpenRow :=
  (if !t.completed then [parentOpenRow project t] else [])
  ++ (if 0 < t.num_subtasks then
        match (asana_io_with_retry (subResp t.gid)).1 with
        | .error _ => []
        | .ok subs => subs.filterMap (fun s =>
            if s.completed then none else some (subOpenRow project s))
      else [])

/-- The get_open_tasks_for_project sweep of asana_io.py: the listing goes
through the retry wrapper, 404 skips the project, and each listed task
contributes its open rows. -/
def get_open_tasks_for_project
    (tasksResp : Nat → Except ApiErr (List RawTask))
    (subResp : String → Nat → Except ApiErr (List RawTask))
    (project : ProjectInfo) : Except ApiErr (List OpenRow) :=
  match (asana_io_with_retry tasksResp).1 with
  | .error e => if e.status == some 404 then .ok [] else .error e
  | .ok tasks => .ok (tasks.flatMap (openRowsForTask subResp project))

/-- The insert_open_tasks_snapshot operation of bigquery.py: a pure append
(an empty batch writes nothing). -/
def insert_open_tasks_snapshot (store rows : List OpenRow) : List OpenRow :=
  if rows.isEmpty then store else store ++ rows

/-! ## The fetch entrypoints -/

/-- Names bound at module level in asana_reporter/bigquery.py: its imports
and its function definitions; attribute access on the module resolves
against this set. -/
def bigquery_module_attrs : List String :=
  ["bigquery", "service_account", "NotFound", "List", "Dict", "Any", "Iterator",
   "datetime", "timezone", "time", "config",
   "get_bigquery_client", "ensure_views", "ensure_table_exists",
   "backfill_minutes_columns", "update_completed_tasks_clustering_to_ids",
   "ensure_open_tasks_snapshot_table", "insert_open_tasks_snapshot",
   "ensure_time_entries_table", "insert_time_entries", "upsert_tasks_via_merge",
   "get_report_data", "ensure_dim_tables"]

/-- An exception as the per-project try/except of src/main.py lines 85-100
distinguishes it: the except clause names only asana.rest.ApiException, so a
TypeError raised by the call binding itself is not caught there. -/
inductive PyExc where
  | apiException (e : ApiErr) : PyExc
  | typeError (kw : String) : PyExc
deriving DecidableEq

/-- The parameter list of get_completed_tasks_for_project in
asana_reporter/asana.py line 189: api_client and project, nothing else (no
*args, no **kwargs); this is the module src/main.py line 10 imports, the
richer asana_io.py variant is imported nowhere. -/
def asana_fetch_params : List String := ["api_client", "project"]

/-- The keyword arguments src/main.py lines 86-93 passes to that function. -/
def v1_fetch_kwargs : List String :=
  ["modified_since", "force_parent_sweep", "completed_since_override",
   "include_incomplete_subtasks"]

/-- Python call binding: a keyword argument outside the callee's parameter
list raises TypeError before the body runs; otherwise the body's own outcome
is returned, an ApiException tagged as such. -/
def callWithKwargs (params kwargs : List String)
    (body : Except ApiErr (List TaskRec)) : Except PyExc (List TaskRec) :=
  match kwargs.find? (fun k => !params.contains k) with
  | some k => .error (.typeError k)
  | none =>
    match body with
    | .ok ts => .ok ts
    | .error e => .error (.apiException e)

/-- The per-project collection loop of src/main.py lines 82-100: the
try/except around the fetch catches only ApiException (the project is then
skipped and the others stay collected, in order); any other exception
escapes the loop. -/
def collectLoop (fetch : ProjectInfo → Except PyExc (List TaskRec)) :
    List ProjectInfo → Except PyExc (List TaskRec)
  | [] => .ok []
  | p :: ps =>
    match fetch p with
    | .ok ts =>
      match collectLoop fetch ps with
      | .ok rest => .ok (ts ++ rest)
      | .error e => .error e
    | .error (.apiException _) => collectLoop fetch ps
    | .error (.typeError kw) => .error (.typeError kw)

/-- Save step and response of src/main.py lines 102-130: with a nonempty
collection the code calls bigquery.insert_tasks, whose name resolution
against the module either succeeds or raises AttributeError into the outer
handler, which answers status error with HTTP 500; the second component is
the list of rows written to the completed-tasks store. -/
def save_and_respond_v1 (all_tasks : List TaskRec) : (String × Nat) × List TaskRec :=
  if all_tasks.isEmpty then (("success", 200), [])
  else if bigquery_module_attrs.contains "insert_tasks" then (("success", 200), all_tasks)
  else (("error", 500), [])

/-- Save step and response of asana_reporter/main.py lines 123-144 (the
handler there answers a bare status dict, no HTTP code). -/
def save_and_respond_v2 (all_tasks : List TaskRec) : String × List TaskRec :=
  if all_tasks.isEmpty then ("success", [])
  else if bigquery_module_attrs.contains "insert_tasks" then ("success", all_tasks)
  else ("error", [])

/-- The fetch call src/main.py lines 86-93 performs for one project:
asana.py's two-parameter get_completed_tasks_for_project invoked with the
four keyword arguments of the call site. -/
def v1_project_fetch (asanaFetch : ProjectInfo → Except ApiErr (List TaskRec))
    (p : ProjectInfo) : Except PyExc (List TaskRec) :=
  callWithKwargs asana_fetch_params v1_fetch_kwargs (asanaFetch p)

/-- The fetch entrypoint of src/main.py from the collection loop on: an
exception escaping the loop lands in the outer handler of lines 126-130
(status error, HTTP 500, nothing written); a completed collection goes to
the save step. -/
def fetch_entrypoint_v1 (asanaFetch : ProjectInfo → Except ApiErr (List TaskRec))
    (projects : List ProjectInfo) : (String × Nat) × List TaskRec :=
  match collectLoop (v1_project_fetch asanaFetch) projects with
  | .ok all_tasks => save_and_respond_v1 all_tasks
  | .error _ => (("error", 500), [])

/-! ## Concrete sample data for witnesses and counterexamples -/

/-- A custom field carrying only a number_value. -/
def numField (n : String) (v : Rat) : RawField := ⟨n, some v, none, none, none, none⟩

/-- A custom field carrying only a text_value. -/
def textField (n t : String) : RawField := ⟨n, none, some t, none, none, none⟩

/-- A minimal completed batch record with a given id, name and modified_at. -/
def mkTaskRec (tid nm : String) (mod : Option Nat) : TaskRec :=
  { task_id := tid
    task_name := nm
    project_id := "P1"
    project_name := "Proj"
    project_gid := none
    assignee_name := none
    assignee_gid := none
    completed_at := some 5
    created_at := none
    due_on := none
    modified_at := mod
    estimated_time := none
    actual_time := none
    actual_time_raw := none
    estimated_minutes := none
    actual_minutes := none
    is_subtask := false
    parent_task_id := none }

/-- A minimal completed store row with a given id, name, modified_at and
inserted_at. -/
def mkStoreRow (tid : String) (nm : Option String) (mod : Option Nat) (ins : Nat) : Row :=
  { task_id := tid
    task_name := nm
    project_id := none
    project_name := none
    project_gid := none
    assignee_name := none
    assignee_gid := none
    completed_at := some 1
    created_at := none
    due_on := none
    modified_at := mod
    inserted_at := ins
    estimated_time := none
    actual_time := none
    actual_time_raw := none
    estimated_minutes := none
    actual_minutes := none
    is_subtask := none
    parent_task_id := none }

/-- The C1 counterexample batch: two records of one task, one with a
modified_at between the two run times and one with a null modified_at. -/
def c1batch : List TaskRec := [mkTaskRec "T" "A" (some 20), mkTaskRec "T" "B" none]

/-- A batch whose records all carry modified_at (for the amended claim). -/
def c1goodBatch : List TaskRec := [mkTaskRec "T" "A" (some 20), mkTaskRec "U" "C" (some 3)]

/-- The C2 witness store: two revisions of task T1. -/
def c2store : List Row :=
  [mkStoreRow "T1" (some "old revision") (some 20240101) 1,
   mkStoreRow "T1" (some "new revision") (some 20240102) 2]

/-- The C4 counterexample: an existing row of task T. -/
def c4row : Row := mkStoreRow "T" (some "Old") (some 1) 0

/-- The C4 counterexample batch: a new observation of task T. -/
def c4batch : List TaskRec := [mkTaskRec "T" "New" (some 2)]

/-- A 504 ApiException. -/
def err504 : ApiErr := ⟨some 504, none, none⟩

/-- A 503 ApiException carrying Retry-After 2. -/
def err503ra : ApiErr := ⟨some 503, none, some 2⟩

/-- A plain 400 ApiException. -/
def err400 : ApiErr := ⟨some 400, none, none⟩

/-- A 404 ApiException. -/
def err404 : ApiErr := ⟨some 404, none, none⟩

/-- Two sample projects. -/
def projA : ProjectInfo := ⟨"A", "Project A"⟩

/-- The second sample project, whose fetch fails. -/
def projB : ProjectInfo := ⟨"B", "Project B"⟩

/-- A fetch oracle for which project A succeeds with one task and every
other project raises 404. -/
def c9fetch : ProjectInfo → Except ApiErr (List TaskRec) :=
  fun p => if p.gid == "A" then .ok [mkTaskRec "T" "A" (some 20)] else .error err404

/-- The same oracle at the exception level of the per-project try/except:
the 404 arrives as an ApiException. -/
def c9fetchExc : ProjectInfo → Except PyExc (List TaskRec) :=
  fun p => if p.gid == "A" then .ok [mkTaskRec "T" "A" (some 20)]
    else .error (.apiException err404)

/-- An open (incomplete) raw task without subtasks. -/
def c10task : RawTask :=
  { gid := "G1"
    name := "open item"
    completed := false
    completed_at := none
    created_at := some 1
    due_on := some 2
    modified_at := some 3
    assignee := none
    num_subtasks := 0
    actual_time_minutes := none
    custom_fields := [] }

/-! ## Helper lemmas on the achievement-rate fallback -/

/-- A rate in (0, 10] is kept as a ratio and divides the estimate. -/
theorem rateFallback_ratio (e r : Rat) (h0 : 0 < r) (h10 : r ≤ 10) :
    rateFallback (some e) none (some r) = some (e / r) := by
  have hc : ¬((10 : Rat) < r ∧ r ≤ 1000) := fun hh => absurd hh.1 (not_lt.mpr h10)
  simp only [rateFallback, if_neg hc, if_pos h0]

/-- A rate in (10, 1000] is divided by 100 and then divides the estimate. -/
theorem rateFallback_percent (e r : Rat) (h10 : 10 < r) (h1000 : r ≤ 1000) :
    rateFallback (some e) none (some r) = some (e / (r / 100)) := by
  have hc : (10 : Rat) < r ∧ r ≤ 1000 := ⟨h10, h1000⟩
  have h0 : (0 : Rat) < r / 100 := by
    have : (0 : Rat) < r := lt_trans (by norm_num) h10
    positivity
  simp only [rateFallback, if_pos hc, if_pos h0]

/-- A non-positive rate yields no fallback value. -/
theorem rateFallback_nonpos (e r : Rat) (hr : r ≤ 0) :
    rateFallback (some e) none (some r) = none := by
  have hc : ¬((10 : Rat) < r ∧ r ≤ 1000) := by
    intro hh
    exact absurd (lt_trans (by norm_num) hh.1) (not_lt.mpr hr)
  have h0 : ¬(0 : Rat) < r := not_lt.mpr hr
  simp only [rateFallback, if_neg hc, if_neg h0]

/-- A rate above 1000 is kept as-is and still divides the estimate. -/
theorem rateFallback_over1000 (e r : Rat) (hr : 1000 < r) :
    rateFallback (some e) none (some r) = some (e / r) := by
  have hc : ¬((10 : Rat) < r ∧ r ≤ 1000) := fun hh => absurd hh.2 (not_le.mpr hr)
  have h0 : (0 : Rat) < r := lt_trans (by norm_num) hr
  simp only [rateFallback, if_neg hc, if_pos h0]

/-! ## Claim C3: the save step calls an undefined bigquery.insert_tasks -/

/-- Claim C3: in both fetch entrypoints the save step calls
bigquery.insert_tasks, a name the bigquery module never defines, so every
run that collects at least one task ends with an error status and no fetched
task is written to the durable store through these entrypoints. -/
theorem insert_tasks_is_undefined_and_save_always_fails :
    ("insert_tasks" ∉ bigquery_module_attrs) ∧
    ∀ ts : List TaskRec, ts ≠ [] →
      save_and_respond_v1 ts = (("error", 500), []) ∧
      save_and_respond_v2 ts = ("error", []) := by
  have hm : "insert_tasks" ∉ bigquery_module_attrs := by decide
  refine ⟨hm, ?_⟩
  intro ts h
  have hne : ts.isEmpty = false := by
    cases ts with
    | nil => exact absurd rfl h
    | cons a l => rfl
  constructor
  · simp [save_and_respond_v1, hne, hm]
  · simp [save_and_respond_v2, hne, hm]

/-- Witness for C3 at a concrete one-task batch. -/
theorem insert_tasks_is_undefined_and_save_always_fails_witness :
    ("insert_tasks" ∉ bigquery_module_attrs) ∧
    save_and_respond_v1 [mkTaskRec "T" "A" (some 20)] = (("error", 500), []) ∧
    save_and_respond_v2 [mkTaskRec "T" "A" (some 20)] = ("error", []) :=
  ⟨insert_tasks_is_undefined_and_save_always_fails.1,
   insert_tasks_is_undefined_and_save_always_fails.2 [mkTaskRec "T" "A" (some 20)]
     (by simp)⟩

/-! ## Claim C5: unit inference of the field normalizers -/

/-- Counterexample to C5 as stated: on the field with name 実績時間 and
text_value 2h, the asana.py normalizer returns a null actual time (its
actual-effort branches read only number_value), not 120. -/
theorem asana_normalizer_drops_jisseki_text :
    (parse_custom_fields_asana [textField "実績時間" "2h"]).actual_time_raw = none ∧
    (parse_custom_fields_asana [textField "実績時間" "2h"]).actual_time_raw ≠ some 120 := by
  have h0 : (parse_custom_fields_asana [textField "実績時間" "2h"]).actual_time_raw = none := rfl
  refine ⟨h0, ?_⟩
  intro h
  rw [h0] at h
  exact Option.noConfusion h

/-- Claim C5 amended: numeric payloads pass through as minutes in both
normalizers ({Estimated time, number v} gives estimated v and
{actual_time_raw, number v} gives actual v); {実績時間, text 2h} yields
actual 120 in the asana_io normalizer but null in the asana one, whose
actual-effort branches accept only numeric payloads. -/
theorem unit_inference_of_normalizers :
    (∀ v : Rat, (parse_custom_fields_asana [numField "Estimated time" v]).estimated_time = some v) ∧
    (∀ v : Rat, (parse_custom_fields_io [numField "Estimated time" v]).estimated_time = some v) ∧
    (∀ v : Rat, (parse_custom_fields_asana [numField "actual_time_raw" v]).actual_time_raw = some v) ∧
    (∀ v : Rat, (parse_custom_fields_io [numField "actual_time_raw" v]).actual_time_raw = some v) ∧
    (parse_custom_fields_io [textField "実績時間" "2h"]).actual_time_raw = some 120 ∧
    (parse_custom_fields_asana [textField "実績時間" "2h"]).actual_time_raw = none := by
  refine ⟨fun v => rfl, fun v => rfl, fun v => rfl, fun v => rfl, ?_, rfl⟩
  rw [show (parse_custom_fields_io [textField "実績時間" "2h"]).actual_time_raw
      = some (((digitsToNat ['2'] : Nat) : Rat) * 60) from rfl,
      show (digitsToNat ['2'] : Nat) = 2 from rfl]
  norm_num

/-! ## Claim C6: the achievement-rate fallback divides -/

/-- Claim C6: with no direct actual value, a known estimate and a positive
normalized rate, the asana.py normalizer computes actual = estimate / rate,
a rate in (10, 1000] being divided by 100 first; concretely 120 with rate
1.5 gives 80 and with rate 75 gives 160. -/
theorem achievement_rate_fallback_divides :
    (∀ e r : Rat, 0 < r → r ≤ 10 →
      rateFallback (some e) none (some r) = some (e / r)) ∧
    (∀ e r : Rat, 10 < r → r ≤ 1000 →
      rateFallback (some e) none (some r) = some (e / (r / 100))) ∧
    (parse_custom_fields_asana
      [numField "Estimated time" 120, numField "時間達成率" (3/2)]).actual_time_raw = some 80 ∧
    (parse_custom_fields_asana
      [numField "Estimated time" 120, numField "時間達成率" 75]).actual_time_raw = some 160 := by
  refine ⟨rateFallback_ratio, rateFallback_percent, ?_, ?_⟩
  · have ha : List.foldl asanaStep ⟨none, none, none⟩
        [numField "Estimated time" (120 : Rat), numField "時間達成率" (3/2 : Rat)]
        = ⟨some 120, none, some (3/2)⟩ := rfl
    have hr : rateFallback (some (120 : Rat)) none (some (3/2 : Rat)) = some (120 / (3/2)) :=
      rateFallback_ratio 120 (3/2) (by norm_num) (by norm_num)
    simp only [parse_custom_fields_asana, ha, hr]
    norm_num
  · have ha : List.foldl asanaStep ⟨none, none, none⟩
        [numField "Estimated time" (120 : Rat), numField "時間達成率" (75 : Rat)]
        = ⟨some 120, none, some 75⟩ := rfl
    have hr : rateFallback (some (120 : Rat)) none (some (75 : Rat)) = some (120 / (75 / 100)) :=
      rateFallback_percent 120 75 (by norm_num) (by norm_num)
    simp only [parse_custom_fields_asana, ha, hr]
    norm_num

/-- Witness for C6 at the two concrete rates of the claim. -/
theorem achievement_rate_fallback_divides_witness :
    rateFallback (some 120) none (some (3/2)) = some 80 ∧
    rateFallback (some 120) none (some 75) = some 160 := by
  constructor
  · have h := achievement_rate_fallback_divides.1 120 (3/2) (by norm_num) (by norm_num)
    rw [h]; norm_num
  · have h := achievement_rate_fallback_divides.2.1 120 75 (by norm_num) (by norm_num)
    rw [h]; norm_num

/-! ## Claim C7: invalid rates and the null default -/

/-- Counterexample to C7 as stated: a rate of 5000 lies outside both (0, 10]
and (10, 1000], yet the normalizer does not ignore it: it computes
actual = 120 / 5000 = 3/125 instead of leaving actual null. -/
theorem rate_above_1000_is_not_ignored :
    (parse_custom_fields_asana
      [numField "Estimated time" 120, numField "時間達成率" 5000]).actual_time_raw = some (3/125) ∧
    (parse_custom_fields_asana
      [numField "Estimated time" 120, numField "時間達成率" 5000]).actual_time_raw ≠ none := by
  have ha : List.foldl asanaStep ⟨none, none, none⟩
      [numField "Estimated time" (120 : Rat), numField "時間達成率" (5000 : Rat)]
      = ⟨some 120, none, some 5000⟩ := rfl
  have hr : rateFallback (some (120 : Rat)) none (some (5000 : Rat)) = some (120 / 5000) :=
    rateFallback_over1000 120 5000 (by norm_num)
  have h1 : (parse_custom_fields_asana
      [numField "Estimated time" 120, numField "時間達成率" 5000]).actual_time_raw
      = some (3/125) := by
    simp only [parse_custom_fields_asana, ha, hr]
    norm_num
  refine ⟨h1, ?_⟩
  rw [h1]
  exact fun h => Option.noConfusion h

/-- Claim C7 amended: a non-positive rate is ignored; a rate in (10, 1000]
is divided by 100; a rate above 1000 is kept as-is and still used as a
divisor (it is not ignored); and when neither the direct path nor the
fallback yields a value, the normalizer returns null actual fields, never
zero. -/
theorem invalid_rates_and_null_default :
    (∀ e r : Rat, r ≤ 0 → rateFallback (some e) none (some r) = none) ∧
    (∀ e r : Rat, 1000 < r → rateFallback (some e) none (some r) = some (e / r)) ∧
    (∀ fields : List RawField,
      (fields.foldl asanaStep ⟨none, none, none⟩).araw = none →
      rateFallback (fields.foldl asanaStep ⟨none, none, none⟩).est none
          (fields.foldl asanaStep ⟨none, none, none⟩).rate = none →
      (parse_custom_fields_asana fields).actual_time_raw = none ∧
      (parse_custom_fields_asana fields).actual_time = none) ∧
    parse_custom_fields_asana [] = ⟨none, none, none⟩ := by
  refine ⟨rateFallback_nonpos, rateFallback_over1000, ?_, rfl⟩
  intro fields h1 h2
  have h3 : rateFallback (fields.foldl asanaStep ⟨none, none, none⟩).est
      (fields.foldl asanaStep ⟨none, none, none⟩).araw
      (fields.foldl asanaStep ⟨none, none, none⟩).rate = none := by
    rw [h1]; exact h2
  constructor <;> simp only [parse_custom_fields_asana, h3]

/-- Witness for C7 at concrete rates 0 and 5000 and a rate-only field list. -/
theorem invalid_rates_and_null_default_witness :
    rateFallback (some 120) none (some 0) = none ∧
    rateFallback (some 120) none (some 5000) = some (120 / 5000) ∧
    (parse_custom_fields_asana [numField "時間達成率" 0]).actual_time_raw = none := by
  refine ⟨invalid_rates_and_null_default.1 120 0 (by norm_num),
          invalid_rates_and_null_default.2.1 120 5000 (by norm_num), ?_⟩
  exact (invalid_rates_and_null_default.2.2.1 [numField "時間達成率" 0] rfl rfl).1

/-! ## Helper lemmas on the retry wrappers -/

/-- The asana.py wrapper on a persistently failing retryable call: six calls,
five backoff sleeps, then the error surfaces. -/
theorem pyRetry_allfail {α : Type} (resp : Nat → Except ApiErr α) (jitter : Nat → Rat)
    (e : ApiErr) (hresp : ∀ n, resp n = .error e)
    (hret : retryablePy (effStatusPy e) = true) :
    asana_with_retry resp jitter =
      (.error e, 6, [pySleep jitter 1, pySleep jitter 2, pySleep jitter 3,
        pySleep jitter 4, pySleep jitter 5]) := by
  simp [asana_with_retry, asanaRetryGo, hresp, hret]

/-- The asana.py wrapper raises a non-retryable failure at once. -/
theorem pyRetry_nonretry {α : Type} (resp : Nat → Except ApiErr α) (jitter : Nat → Rat)
    (e : ApiErr) (hresp : resp 0 = .error e)
    (hret : retryablePy (effStatusPy e) = false) :
    asana_with_retry resp jitter = (.error e, 1, []) := by
  simp [asana_with_retry, asanaRetryGo, hresp, hret]

/-- The asana_io.py wrapper on a persistently failing retryable call: six
calls, five sleeps, then the error surfaces. -/
theorem ioRetry_allfail {α : Type} (resp : Nat → Except ApiErr α)
    (e : ApiErr) (hresp : ∀ n, resp n = .error e)
    (hret : retryableIo e.status = true) :
    asana_io_with_retry resp =
      (.error e, 6, [ioSleep e 0, ioSleep e 1, ioSleep e 2, ioSleep e 3, ioSleep e 4]) := by
  simp [asana_io_with_retry, ioRetryGo, hresp, hret]

/-- The asana_io.py wrapper raises a non-retryable failure at once. -/
theorem ioRetry_nonretry {α : Type} (resp : Nat → Except ApiErr α)
    (e : ApiErr) (hresp : resp 0 = .error e)
    (hret : retryableIo e.status = false) :
    asana_io_with_retry resp = (.error e, 1, []) := by
  simp [asana_io_with_retry, ioRetryGo, hresp, hret]

/-! ## Claim C8: retry policy and termination -/

/-- Counterexample to C8 as stated: the asana_io wrapper does not retry 504
at all; a call that fails with 504 is raised after one single call, not
after six attempts. -/
theorem io_wrapper_raises_504_without_retry :
    asana_io_with_retry (fun _ => (.error err504 : Except ApiErr Unit)) =
      (.error err504, 1, []) := by
  exact ioRetry_nonretry _ err504 rfl rfl

/-- Claim C8 amended: the asana.py wrapper retries 429/500/502/503/504 up to
six attempts with exponential jittered backoff and never consults
Retry-After (the sleeps depend only on the attempt and the jitter draw),
raising after exactly six calls on persistent failure; the asana_io wrapper
retries only 429/500/502/503, honouring a positive Retry-After for the
delay, and raises after exactly six calls on persistent failure, while 504
is raised without any retry; in both, a non-retryable status is raised
after one call. -/
theorem retry_policy_of_both_wrappers :
    ((retryablePy (some 429) && retryablePy (some 500) && retryablePy (some 502)
        && retryablePy (some 503) && retryablePy (some 504)) = true) ∧
    ((retryableIo (some 429) && retryableIo (some 500) && retryableIo (some 502)
        && retryableIo (some 503)) = true ∧ retryableIo (some 504) = false) ∧
    (∀ (resp : Nat → Except ApiErr Unit) (jitter : Nat → Rat) (e : ApiErr),
      (∀ n, resp n = .error e) → retryablePy (effStatusPy e) = true →
      asana_with_retry resp jitter =
        (.error e, 6, [pySleep jitter 1, pySleep jitter 2, pySleep jitter 3,
          pySleep jitter 4, pySleep jitter 5])) ∧
    (∀ (resp : Nat → Except ApiErr Unit) (jitter : Nat → Rat) (e : ApiErr),
      resp 0 = .error e → retryablePy (effStatusPy e) = false →
      asana_with_retry resp jitter = (.error e, 1, [])) ∧
    (∀ (resp : Nat → Except ApiErr Unit) (e : ApiErr),
      (∀ n, resp n = .error e) → retryableIo e.status = true →
      asana_io_with_retry resp =
        (.error e, 6, [ioSleep e 0, ioSleep e 1, ioSleep e 2, ioSleep e 3, ioSleep e 4])) ∧
    (∀ (resp : Nat → Except ApiErr Unit) (e : ApiErr),
      resp 0 = .error e → retryableIo e.status = false →
      asana_io_with_retry resp = (.error e, 1, [])) ∧
    (∀ (e : ApiErr) (k : Int) (n : Nat), e.retryAfter = some k → 0 < k → ioSleep e n = k) := by
  refine ⟨by decide, ⟨by decide, by decide⟩, pyRetry_allfail, pyRetry_nonretry,
    ioRetry_allfail, ioRetry_nonretry, ?_⟩
  intro e k n hk h0
  simp [ioSleep, hk, h0]

/-- Witness for C8: a persistent 503 with Retry-After 2 makes the asana_io
wrapper place six calls sleeping 2 between them, and a plain 400 is raised by
both wrappers after one call. -/
theorem retry_policy_of_both_wrappers_witness :
    asana_io_with_retry (fun _ => (.error err503ra : Except ApiErr Unit)) =
      (.error err503ra, 6, [2, 2, 2, 2, 2]) ∧
    asana_with_retry (fun _ => (.error err400 : Except ApiErr Unit)) (fun _ => 0) =
      (.error err400, 1, []) ∧
    asana_io_with_retry (fun _ => (.error err400 : Except ApiErr Unit)) =
      (.error err400, 1, []) := by
  refine ⟨?_, ?_, ?_⟩
  · have h := retry_policy_of_both_wrappers.2.2.2.2.1
      (fun _ => (.error err503ra : Except ApiErr Unit)) err503ra (fun _ => rfl) rfl
    rw [h]
    rfl
  · exact retry_policy_of_both_wrappers.2.2.2.1
      (fun _ => (.error err400 : Except ApiErr Unit)) (fun _ => 0) err400 rfl rfl
  · exact retry_policy_of_both_wrappers.2.2.2.2.2.1
      (fun _ => (.error err400 : Except ApiErr Unit)) err400 rfl rfl

/-! ## Claim C9: 404 skip and partial-failure isolation -/

/-- Counterexample to C9 as stated: with project A's listing healthy and
project B answering 404, the src/main.py run still collects nothing and
passes nothing on — the call site binds asana.py's two-parameter
get_completed_tasks_for_project yet passes four keyword arguments it does
not accept, so the first iteration raises TypeError, which the
ApiException-only except clause lets escape, and the outer handler answers
an error with an empty result. -/
theorem v1_run_aborts_despite_healthy_project :
    c9fetch projA = .ok [mkTaskRec "T" "A" (some 20)] ∧
    c9fetch projB = .error err404 ∧
    collectLoop (v1_project_fetch c9fetch) [projA, projB]
      = .error (.typeError "modified_since") ∧
    fetch_entrypoint_v1 c9fetch [projA, projB] = (("error", 500), []) :=
  ⟨rfl, rfl, rfl, rfl⟩

/-- Claim C9 (amended): the 404 skip exists only in asana_io.py, whose
get_completed_tasks_for_project returns an empty list when the listing
answers 404; src/main.py's per-project except clause does isolate an
ApiException, keeping the other projects' tasks collected in order; but the
entrypoint as written reaches neither behaviour: it imports asana.py, whose
two-parameter fetch rejects the call site's keyword arguments, so on every
project list the run aborts at the first project with an uncaught TypeError
and answers status error, HTTP 500, with no task collected or saved. -/
theorem io_skip_isolation_and_v1_call_mismatch :
    (∀ (tasksResp : FetchWindow → Nat → Except ApiErr (List RawTask))
       (subResp : String → Nat → Except ApiErr (List RawTask))
       (project : ProjectInfo) (ms : Option String) (fps : Bool) (cso : Option String)
       (inc : Bool) (e : ApiErr),
      tasksResp (chooseWindow ms fps cso) 0 = .error e → e.status = some 404 →
      get_completed_tasks_for_project tasksResp subResp project ms fps cso inc = .ok []) ∧
    (∀ (fetch : ProjectInfo → Except PyExc (List TaskRec)) (pA pB : ProjectInfo)
       (tsA : List TaskRec) (e : ApiErr),
      fetch pA = .ok tsA → fetch pB = .error (.apiException e) →
      collectLoop fetch [pA, pB] = .ok tsA) ∧
    (∀ (asanaFetch : ProjectInfo → Except ApiErr (List TaskRec))
       (p : ProjectInfo) (ps : List ProjectInfo),
      collectLoop (v1_project_fetch asanaFetch) (p :: ps)
        = .error (.typeError "modified_since") ∧
      fetch_entrypoint_v1 asanaFetch (p :: ps) = (("error", 500), [])) := by
  refine ⟨?_, ?_, ?_⟩
  · intro tasksResp subResp project ms fps cso inc e hresp h404
    have hret : retryableIo e.status = false := by rw [h404]; decide
    have hr := ioRetry_nonretry (tasksResp (chooseWindow ms fps cso)) e hresp hret
    simp [get_completed_tasks_for_project, hr, h404]
  · intro fetch pA pB tsA e hA hB
    simp [collectLoop, hA, hB]
  · intro asanaFetch p ps
    exact ⟨rfl, rfl⟩

/-- Witness for the amended C9: a 404 listing makes the asana_io fetch come
back empty; an ApiException-level 404 from project B leaves project A's task
collected; and the real v1 entrypoint on the same two projects answers an
error with nothing collected. -/
theorem io_skip_isolation_and_v1_call_mismatch_witness :
    get_completed_tasks_for_project (fun _ _ => .error err404) (fun _ _ => .ok [])
      projB none false none false = .ok [] ∧
    collectLoop c9fetchExc [projA, projB] = .ok [mkTaskRec "T" "A" (some 20)] ∧
    fetch_entrypoint_v1 c9fetch [projA, projB] = (("error", 500), []) :=
  ⟨io_skip_isolation_and_v1_call_mismatch.1 (fun _ _ => .error err404)
      (fun _ _ => .ok []) projB none false none false err404 rfl rfl,
   io_skip_isolation_and_v1_call_mismatch.2.1 c9fetchExc projA projB
      [mkTaskRec "T" "A" (some 20)] err404 rfl rfl,
   (io_skip_isolation_and_v1_call_mismatch.2.2 c9fetch projA [projB]).2⟩

/-! ## Claim C10: the open-task sweep never records an overdue item -/

/-- Every row built for one listed task by the open sweep has is_overdue
false. -/
theorem openRowsForTask_not_overdue
    (subResp : String → Nat → Except ApiErr (List RawTask))
    (project : ProjectInfo) (t : RawTask) (r : OpenRow)
    (h : r ∈ openRowsForTask subResp project t) : r.is_overdue = false := by
  rcases List.mem_append.mp h with h1 | h2
  · by_cases hc : t.completed
    · simp [hc] at h1
    · simp [hc] at h1
      rw [h1]
      rfl
  · by_cases hn : 0 < t.num_subtasks
    · simp only [if_pos hn] at h2
      cases hres : (asana_io_with_retry (subResp t.gid)).1 with
      | error e => rw [hres] at h2; simp at h2
      | ok subs =>
        rw [hres] at h2
        rcases List.mem_filterMap.mp h2 with ⟨s, _, hs⟩
        by_cases hsc : s.completed
        · simp [hsc] at hs
        · simp [hsc] at hs
          rw [← hs]
          rfl
    · simp [if_neg hn] at h2

/-- Claim C10: every row produced by the open-task sweep has is_overdue
false (it is initialized False for parents and subtasks and never
recomputed), and the snapshot append only adds such rows to the store. -/
theorem open_snapshot_never_overdue :
    (∀ (tasksResp : Nat → Except ApiErr (List RawTask))
       (subResp : String → Nat → Except ApiErr (List RawTask))
       (project : ProjectInfo) (rows : List OpenRow),
      get_open_tasks_for_project tasksResp subResp project = .ok rows →
      ∀ r ∈ rows, r.is_overdue = false) ∧
    (∀ (store rows : List OpenRow), (∀ r ∈ rows, r.is_overdue = false) →
      ∀ r ∈ insert_open_tasks_snapshot store rows, r ∈ store ∨ r.is_overdue = false) := by
  constructor
  · intro tasksResp subResp project rows hok r hr
    rw [get_open_tasks_for_project] at hok
    cases hres : (asana_io_with_retry tasksResp).1 with
    | error e =>
      rw [hres] at hok
      by_cases h4 : (e.status == some 404) = true
      · simp [h4] at hok
        subst hok
        simp at hr
      · simp [h4] at hok
    | ok tasks =>
      rw [hres] at hok
      cases hok
      rcases List.mem_flatMap.mp hr with ⟨t, _, hrt⟩
      exact openRowsForTask_not_overdue subResp project t r hrt
  · intro store rows hrows r hr
    rw [insert_open_tasks_snapshot] at hr
    by_cases he : rows.isEmpty
    · rw [if_pos he] at hr
      exact Or.inl hr
    · rw [if_neg he] at hr
      rcases List.mem_append.mp hr with h1 | h2
      · exact Or.inl h1
      · exact Or.inr (hrows r h2)

/-- Witness for C10 at a one-task sweep. -/
theorem open_snapshot_never_overdue_witness :
    (parentOpenRow projA c10task).is_overdue = false ∧
    (parentOpenRow projA c10task ∈ ([] : List OpenRow) ∨
      (parentOpenRow projA c10task).is_overdue = false) := by
  have h1 := open_snapshot_never_overdue.1 (fun _ => .ok [c10task]) (fun _ _ => .ok [])
    projA [parentOpenRow projA c10task] rfl (parentOpenRow projA c10task) (by simp)
  have h2 := open_snapshot_never_overdue.2 [] [parentOpenRow projA c10task]
    (fun r hr => by simp at hr; rw [hr]; rfl) (parentOpenRow projA c10task)
    (by simp [insert_open_tasks_snapshot])
  exact ⟨h1, h2⟩

/-! ## Helper lemmas on the staged MERGE -/

/-- The representative kept by the staging dedup fold is drawn from the
accumulator or the scanned list. -/
theorem foldBest_mem (now : Nat) :
    ∀ (l : List TaskRec) (acc : Option TaskRec) (b : TaskRec),
      l.foldl (fun acc r =>
        match acc with
        | none => some r
        | some bb => if mergeKey now bb < mergeKey now r then some r else some bb) acc = some b →
      acc = some b ∨ b ∈ l := by
  intro l
  induction l with
  | nil => intro acc b h; exact Or.inl h
  | cons r l ih =>
    intro acc b h
    rcases ih _ b h with h1 | h2
    · cases acc with
      | none =>
        simp only [] at h1
        rcases h1 with h1
        exact Or.inr (by simp [← Option.some.inj h1])
      | some bb =>
        simp only [] at h1
        by_cases hlt : mergeKey now bb < mergeKey now r
        · rw [if_pos hlt] at h1
          exact Or.inr (by simp [← Option.some.inj h1])
        · rw [if_neg hlt] at h1
          exact Or.inl h1
    · exact Or.inr (List.mem_cons_of_mem _ h2)

/-- The winner bestFor returns belongs to the batch and carries the asked
task_id. -/
theorem bestFor_mem (now : Nat) (batch : List TaskRec) (tid : String) (b : TaskRec)
    (h : bestFor now batch tid = some b) : b ∈ batch ∧ b.task_id = tid := by
  rw [bestFor] at h
  rcases foldBest_mem now _ none b h with h1 | h2
  · exact Option.noConfusion h1
  · rcases List.mem_filter.mp h2 with ⟨hb, ht⟩
    exact ⟨hb, by simpa using ht⟩

/-- Every staged source row's task_id occurs in the batch. -/
theorem staged_tid_mem (now : Nat) (batch : List TaskRec) (s : Row)
    (h : s ∈ stagedMergeSource now batch) : ∃ b ∈ batch, s.task_id = b.task_id := by
  rw [stagedMergeSource] at h
  rcases List.mem_filterMap.mp h with ⟨tid, _, hmap⟩
  rcases Option.map_eq_some'.mp hmap with ⟨b, hb, hs⟩
  rcases bestFor_mem now batch tid b hb with ⟨hbm, hbt⟩
  exact ⟨b, hbm, by rw [← hs]; rfl⟩

/-- One MERGE source row leaves every row of a different task_id in place. -/
theorem applyMerge_mem_of_ne (store : List Row) (s r : Row)
    (hr : r ∈ store) (hne : s.task_id ≠ r.task_id) : r ∈ applyMerge store s := by
  rw [applyMerge]
  by_cases hany : store.any (fun t => t.task_id == s.task_id)
  · rw [if_pos hany]
    have hbeq : (r.task_id == s.task_id) = false := by
      rw [beq_eq_false_iff_ne]
      exact fun hh => hne hh.symm
    have := List.mem_map_of_mem
      (fun t => if t.task_id == s.task_id then updateRow t s else t) hr
    simpa [hbeq] using this
  · rw [if_neg hany]
    exact List.mem_append_left _ hr

/-- Folding MERGE source rows whose task_ids all differ from r's keeps r. -/
theorem foldMerge_mem_of_ne :
    ∀ (l : List Row) (store : List Row) (r : Row),
      r ∈ store → (∀ s ∈ l, s.task_id ≠ r.task_id) →
      r ∈ l.foldl applyMerge store := by
  intro l
  induction l with
  | nil => intro store r hr _; exact hr
  | cons s l ih =>
    intro store r hr hne
    exact ih (applyMerge store s) r
      (applyMerge_mem_of_ne store s r hr (hne s (List.mem_cons_self s l)))
      (fun q hq => hne q (List.mem_cons_of_mem s hq))

/-! ## Claim C4: the store is not append-only -/

/-- Counterexample to C4 as stated: a batch observation of an existing
task_id replaces the stored row in place; the prior row is gone from the
store after the merge. -/
theorem merge_mutates_existing_row :
    c4row ∈ [c4row] ∧ c4row ∉ upsert_tasks_via_merge [c4row] c4batch 5 := by
  constructor
  · simp
  · decide

/-- Claim C4 amended: the staged merge preserves verbatim every store row
whose task_id does not occur in the batch and inserts rows for new
task_ids, but a row whose task_id is matched is updated in place rather
than preserved; the backfill likewise rewrites rows in place, changing row
count never and touching only the two minutes columns. -/
theorem merge_preserves_only_unmatched_rows :
    (∀ (store : List Row) (batch : List TaskRec) (now : Nat) (r : Row),
      r ∈ store → (∀ b ∈ batch, b.task_id ≠ r.task_id) →
      r ∈ upsert_tasks_via_merge store batch now) ∧
    (upsert_tasks_via_merge [c4row] c4batch 5
      = [updateRow c4row (toRow 5 (mkTaskRec "T" "New" (some 2)))]) ∧
    (∀ store : List Row, (backfill_minutes_columns store).length = store.length) ∧
    (∀ (store : List Row) (r : Row), r ∈ store →
      backfillRow r ∈ backfill_minutes_columns store ∧
      ({ backfillRow r with estimated_minutes := none, actual_minutes := none } =
       { r with estimated_minutes := none, actual_minutes := none })) := by
  refine ⟨?_, by decide, ?_, ?_⟩
  · intro store batch now r hr hne
    rw [upsert_tasks_via_merge]
    refine foldMerge_mem_of_ne _ store r hr ?_
    intro s hs
    rcases staged_tid_mem now batch s hs with ⟨b, hb, hst⟩
    rw [hst]
    exact hne b hb
  · intro store
    simp [backfill_minutes_columns]
  · intro store r hr
    constructor
    · exact List.mem_map_of_mem backfillRow hr
    · rw [backfillRow]
      split <;> split <;> split <;> rfl

/-- Witness for C4 at a concrete store and an unrelated batch. -/
theorem merge_preserves_only_unmatched_rows_witness :
    c4row ∈ upsert_tasks_via_merge [c4row] [mkTaskRec "U" "X" (some 9)] 7 ∧
    backfillRow c4row ∈ backfill_minutes_columns [c4row] ∧
    ({ backfillRow c4row with estimated_minutes := none, actual_minutes := none } =
     { c4row with estimated_minutes := none, actual_minutes := none }) := by
  refine ⟨merge_preserves_only_unmatched_rows.1 [c4row] [mkTaskRec "U" "X" (some 9)] 7 c4row
      (by simp) (by decide), ?_, ?_⟩
  · exact (merge_preserves_only_unmatched_rows.2.2.2 [c4row] c4row (by simp)).1
  · exact (merge_preserves_only_unmatched_rows.2.2.2 [c4row] c4row (by simp)).2

/-! ## Helper lemmas on the view ranking -/

/-- No row strictly outranks itself. -/
theorem vb_irrefl (r : Row) : viewBetter r r = false := by
  cases h : r.modified_at <;> simp [viewBetter, optLt, h]

/-- Strict outranking is transitive. -/
theorem vb_trans (a b c : Row) (h1 : viewBetter a b = true) (h2 : viewBetter b c = true) :
    viewBetter a c = true := by
  cases ha : a.modified_at <;> cases hb : b.modified_at <;> cases hc : c.modified_at <;>
    simp [viewBetter, optLt, ha, hb, hc] at h1 h2 ⊢ <;> omega

/-- Not-outranking is transitive (the ranking is total on the key). -/
theorem vb_le_trans (a b c : Row) (h1 : viewBetter a b = false) (h2 : viewBetter b c = false) :
    viewBetter a c = false := by
  cases ha : a.modified_at <;> cases hb : b.modified_at <;> cases hc : c.modified_at <;>
    simp [viewBetter, optLt, ha, hb, hc] at h1 h2 ⊢ <;> omega

/-- The pick fold started at m yields a row of the scanned set (or m itself)
that no scanned row and not m strictly outranks. -/
theorem pickAux :
    ∀ (l : List Row) (m : Row), ∃ r, l.foldl pickTop (some m) = some r ∧
      (r = m ∨ r ∈ l) ∧ viewBetter m r = false ∧ ∀ q ∈ l, viewBetter q r = false := by
  intro l
  induction l with
  | nil => intro m; exact ⟨m, rfl, Or.inl rfl, vb_irrefl m, by simp⟩
  | cons r0 l ih =>
    intro m
    by_cases hb : viewBetter r0 m = true
    · rcases ih r0 with ⟨r, hfold, hmem, hm0, hall⟩
      refine ⟨r, ?_, ?_, ?_, ?_⟩
      · rw [List.foldl_cons]
        rw [show pickTop (some m) r0 = some r0 by simp [pickTop, hb]]
        exact hfold
      · rcases hmem with h | h
        · exact Or.inr (h ▸ List.mem_cons_self r0 l)
        · exact Or.inr (List.mem_cons_of_mem r0 h)
      · cases hmr : viewBetter m r with
        | false => rfl
        | true =>
          have := vb_trans r0 m r hb hmr
          rw [hm0] at this
          exact Bool.noConfusion this
      · intro q hq
        rcases List.mem_cons.mp hq with h | h
        · exact h ▸ hm0
        · exact hall q h
    · have hb2 : viewBetter r0 m = false := by
        revert hb; cases viewBetter r0 m <;> simp
      rcases ih m with ⟨r, hfold, hmem, hm0, hall⟩
      refine ⟨r, ?_, ?_, hm0, ?_⟩
      · rw [List.foldl_cons]
        rw [show pickTop (some m) r0 = some m by simp [pickTop, hb2]]
        exact hfold
      · rcases hmem with h | h
        · exact Or.inl h
        · exact Or.inr (List.mem_cons_of_mem r0 h)
      · intro q hq
        rcases List.mem_cons.mp hq with h | h
        · exact h ▸ vb_le_trans r0 m r hb2 hm0
        · exact hall q h

/-- When a task_id has a completed row, latestFor returns a completed store
row of that task_id that no such row strictly outranks. -/
theorem latestFor_spec (store : List Row) (tid : String)
    (h : ∃ r ∈ store, r.task_id = tid ∧ r.completed_at.isSome) :
    ∃ r, latestFor store tid = some r ∧ r ∈ store ∧ r.task_id = tid ∧
      r.completed_at.isSome ∧
      ∀ q ∈ store, q.task_id = tid → q.completed_at.isSome → viewBetter q r = false := by
  rcases h with ⟨r0, hr0s, hr0t, hr0c⟩
  have hr0g : r0 ∈ (completedRows store).filter (fun r => r.task_id == tid) := by
    refine List.mem_filter.mpr ⟨?_, by simp [hr0t]⟩
    exact List.mem_filter.mpr ⟨hr0s, by simp [hr0c]⟩
  have hmemg : ∀ q : Row, q ∈ (completedRows store).filter (fun r => r.task_id == tid) ↔
      (q ∈ store ∧ q.task_id = tid ∧ q.completed_at.isSome) := by
    intro q
    constructor
    · intro hq
      rcases List.mem_filter.mp hq with ⟨hq1, hq2⟩
      rcases List.mem_filter.mp hq1 with ⟨hq3, hq4⟩
      exact ⟨hq3, by simpa using hq2, by simpa using hq4⟩
    · intro ⟨hq1, hq2, hq3⟩
      exact List.mem_filter.mpr ⟨List.mem_filter.mpr ⟨hq1, by simp [hq3]⟩, by simp [hq2]⟩
  rw [latestFor]
  cases hg : (completedRows store).filter (fun r => r.task_id == tid) with
  | nil => rw [hg] at hr0g; simp at hr0g
  | cons q g2 =>
    rcases pickAux g2 q with ⟨r, hfold, hmem, hm0, hall⟩
    have hfoldn : List.foldl pickTop none (q :: g2) = some r := by
      rw [List.foldl_cons]
      rw [show pickTop none q = some q from rfl]
      exact hfold
    have hrg : r ∈ (completedRows store).filter (fun x => x.task_id == tid) := by
      rw [hg]
      rcases hmem with h | h
      · exact h ▸ List.mem_cons_self q g2
      · exact List.mem_cons_of_mem q h
    rcases (hmemg r).mp hrg with ⟨hrs, hrt, hrc⟩
    refine ⟨r, hfoldn, hrs, hrt, hrc, ?_⟩
    intro p hps hpt hpc
    have hpg : p ∈ (completedRows store).filter (fun x => x.task_id == tid) :=
      (hmemg p).mpr ⟨hps, hpt, hpc⟩
    rw [hg] at hpg
    rcases List.mem_cons.mp hpg with h | h
    · exact h ▸ hm0
    · exact hall p h

/-! ## Helper lemmas on first occurrences -/

/-- Membership in the first-occurrence list. -/
theorem mem_firstOccsAux :
    ∀ (l seen : List String) (x : String),
      x ∈ firstOccsAux seen l ↔ (x ∈ l ∧ x ∉ seen) := by
  intro l
  induction l with
  | nil => intro seen x; simp [firstOccsAux]
  | cons t ts ih =>
    intro seen x
    rw [firstOccsAux]
    by_cases hc : seen.contains t
    · rw [if_pos hc]
      rw [ih]
      have htm : t ∈ seen := by simpa using hc
      constructor
      · intro ⟨h1, h2⟩; exact ⟨List.mem_cons_of_mem t h1, h2⟩
      · intro ⟨h1, h2⟩
        rcases List.mem_cons.mp h1 with h | h
        · exact absurd (h ▸ htm) h2
        · exact ⟨h, h2⟩
    · rw [if_neg hc]
      have htm : t ∉ seen := by simpa using hc
      constructor
      · intro h1
        rcases List.mem_cons.mp h1 with h | h
        · exact ⟨h ▸ List.mem_cons_self t ts, h ▸ htm⟩
        · rcases (ih (t :: seen) x).mp h with ⟨h2, h3⟩
          exact ⟨List.mem_cons_of_mem t h2,
            fun hx => h3 (List.mem_cons_of_mem t hx)⟩
      · intro ⟨h1, h2⟩
        by_cases hx : x = t
        · exact hx ▸ List.mem_cons_self t _
        · rcases List.mem_cons.mp h1 with h | h
          · exact absurd h hx
          · exact List.mem_cons_of_mem t
              ((ih (t :: seen) x).mpr ⟨h, fun hm => by
                rcases List.mem_cons.mp hm with hh | hh
                · exact hx hh
                · exact h2 hh⟩)

/-- The first-occurrence list has no duplicates. -/
theorem nodup_firstOccsAux :
    ∀ (l seen : List String), (firstOccsAux seen l).Nodup := by
  intro l
  induction l with
  | nil => intro seen; simp [firstOccsAux]
  | cons t ts ih =>
    intro seen
    rw [firstOccsAux]
    by_cases hc : seen.contains t
    · rw [if_pos hc]; exact ih seen
    · rw [if_neg hc]
      refine List.nodup_cons.mpr ⟨?_, ih (t :: seen)⟩
      intro hmem
      exact ((mem_firstOccsAux ts (t :: seen) t).mp hmem).2 (List.mem_cons_self t seen)

/-- Membership in firstOccs is membership in the underlying list. -/
theorem mem_firstOccs (l : List String) (x : String) : x ∈ firstOccs l ↔ x ∈ l := by
  rw [firstOccs, mem_firstOccsAux]
  simp

/-- Counting a task_id over the assembled view rows equals counting it over
the id list, when every id resolves to a view row of that id. -/
theorem countP_filterMap_latest :
    ∀ (L : List String) (store : List Row) (tid : String),
      (∀ t ∈ L, ∃ r, latestFor store t = some r ∧ r.task_id = t) →
      ((L.filterMap (fun t => (latestFor store t).map toViewRow)).countP
          (fun w => w.task_id == tid)) = L.countP (fun t => t == tid) := by
  intro L
  induction L with
  | nil => intro store tid _; rfl
  | cons t L ih =>
    intro store tid hres
    rcases hres t (List.mem_cons_self t L) with ⟨r, hl, ht⟩
    have hfc : List.filterMap (fun t => (latestFor store t).map toViewRow) (t :: L)
        = toViewRow r :: List.filterMap (fun t => (latestFor store t).map toViewRow) L := by
      rw [List.filterMap_cons, hl]
      rfl
    rw [hfc]
    rw [List.countP_cons, List.countP_cons]
    rw [ih store tid (fun q hq => hres q (List.mem_cons_of_mem t hq))]
    have : ((toViewRow r).task_id == tid) = (t == tid) := by
      rw [show (toViewRow r).task_id = r.task_id from rfl, ht]
    rw [this]

/-- A nodup list containing an element counts it exactly once. -/
theorem countP_beq_eq_one :
    ∀ (L : List String) (tid : String), L.Nodup → tid ∈ L →
      L.countP (fun t => t == tid) = 1 := by
  intro L
  induction L with
  | nil => intro tid _ h; simp at h
  | cons a L ih =>
    intro tid hnd hmem
    rw [List.countP_cons]
    rcases List.nodup_cons.mp hnd with ⟨hna, hndL⟩
    rcases List.mem_cons.mp hmem with h1 | h2
    · subst h1
      have hz : L.countP (fun t => t == tid) = 0 := by
        refine List.countP_eq_zero.mpr ?_
        intro x hx
        simp only [beq_iff_eq]
        intro hxe
        exact hna (hxe ▸ hx)
      simp [hz]
    · have hne : (a == tid) = false := by
        simp only [beq_eq_false_iff_ne]
        intro he
        exact hna (he ▸ h2)
      rw [hne, ih tid hndL h2]
      simp

/-! ## Claim C2: the latest-revision view -/

/-- Claim C2: for every store state and task_id with a completed row, the
view v_unique_tasks holds exactly one row for that task_id, namely the
projection of a completed row of that task_id that no other completed row
of the same task_id outranks under (modified_at DESC, inserted_at DESC);
and on the concrete two-revision store the view returns the
modified_at = 2024-01-02 row. -/
theorem latest_view_is_unique_and_latest :
    (∀ (store : List Row) (tid : String),
      (∃ r ∈ store, r.task_id = tid ∧ r.completed_at.isSome) →
      (v_unique_tasks store).countP (fun w => w.task_id == tid) = 1 ∧
      ∃ r ∈ store, r.task_id = tid ∧ r.completed_at.isSome ∧
        latestFor store tid = some r ∧ toViewRow r ∈ v_unique_tasks store ∧
        ∀ q ∈ store, q.task_id = tid → q.completed_at.isSome → viewBetter q r = false) ∧
    v_unique_tasks c2store =
      [toViewRow (mkStoreRow "T1" (some "new revision") (some 20240102) 2)] := by
  constructor
  · intro store tid h
    have hres : ∀ t ∈ firstOccs ((completedRows store).map (fun x => x.task_id)),
        ∃ r, latestFor store t = some r ∧ r.task_id = t := by
      intro t ht
      have ht2 : t ∈ (completedRows store).map (fun x => x.task_id) :=
        (mem_firstOccs _ t).mp ht
      rcases List.mem_map.mp ht2 with ⟨p, hp, hpt⟩
      rcases List.mem_filter.mp hp with ⟨hps, hpc⟩
      rcases latestFor_spec store t ⟨p, hps, hpt, by simpa using hpc⟩ with
        ⟨r, hr1, _, hr3, _, _⟩
      exact ⟨r, hr1, hr3⟩
    rcases latestFor_spec store tid h with ⟨r, hl, hrs, hrt, hrc, hmax⟩
    have htidL : tid ∈ firstOccs ((completedRows store).map (fun x => x.task_id)) := by
      rw [mem_firstOccs]
      refine List.mem_map.mpr ⟨r, ?_, hrt⟩
      exact List.mem_filter.mpr ⟨hrs, by simp [hrc]⟩
    constructor
    · rw [v_unique_tasks]
      rw [countP_filterMap_latest _ store tid hres]
      refine countP_beq_eq_one _ tid ?_ htidL
      rw [firstOccs]
      exact nodup_firstOccsAux _ _
    · refine ⟨r, hrs, hrt, hrc, hl, ?_, hmax⟩
      rw [v_unique_tasks]
      refine List.mem_filterMap.mpr ⟨tid, htidL, ?_⟩
      rw [hl]
      rfl
  · decide

/-- Witness for C2 at the concrete two-revision store of task T1. -/
theorem latest_view_is_unique_and_latest_witness :
    (∃ r ∈ c2store, r.task_id = "T1" ∧ r.completed_at.isSome) ∧
    ((v_unique_tasks c2store).countP (fun w => w.task_id == "T1") = 1 ∧
      ∃ r ∈ c2store, r.task_id = "T1" ∧ r.completed_at.isSome ∧
        latestFor c2store "T1" = some r ∧ toViewRow r ∈ v_unique_tasks c2store ∧
        ∀ q ∈ c2store, q.task_id = "T1" → q.completed_at.isSome → viewBetter q r = false) :=
  ⟨by decide, latest_view_is_unique_and_latest.1 c2store "T1" (by decide)⟩

/-! ## Helper lemmas for merge idempotence: pointwise facts -/

/-- Restamping keeps the task_id. -/
theorem setIns_task_id (n : Nat) (r : Row) : (setIns n r).task_id = r.task_id := rfl

/-- Restamping twice keeps the later stamp only. -/
theorem setIns_setIns (n m : Nat) (r : Row) : setIns n (setIns m r) = setIns n r := rfl

/-- The MERGE update ignores the target's inserted_at. -/
theorem updateRow_setIns_target (n : Nat) (t s : Row) :
    updateRow (setIns n t) s = updateRow t s := rfl

/-- Restamping a staged row restages it. -/
theorem setIns_toRow (t1 t2 : Nat) (b : TaskRec) : setIns t2 (toRow t1 b) = toRow t2 b := rfl

/-- Updating an updated row again with the same source, restamped, only
restamps it. -/
theorem absorb_update (t s : Row) (n : Nat) :
    updateRow (updateRow t s) (setIns n s) = setIns n (updateRow t s) := by
  cases h1 : s.project_gid <;> cases h2 : s.assignee_gid <;>
    cases h3 : s.estimated_minutes <;> cases h4 : s.actual_minutes <;>
      simp [updateRow, setIns, coalesce, h1, h2, h3, h4]

/-- Updating an inserted source row with itself, restamped, only restamps
it. -/
theorem absorb_self (s : Row) (n : Nat) : updateRow s (setIns n s) = setIns n s := by
  cases h1 : s.project_gid <;> cases h2 : s.assignee_gid <;>
    cases h3 : s.estimated_minutes <;> cases h4 : s.actual_minutes <;>
      simp [updateRow, setIns, coalesce, h1, h2, h3, h4]

/-- Pointwise map congruence over members. -/
theorem map_congr_mem {α β : Type} :
    ∀ (l : List α) (f g : α → β), (∀ a ∈ l, f a = g a) → l.map f = l.map g := by
  intro l
  induction l with
  | nil => intro f g _; rfl
  | cons a l ih =>
    intro f g h
    rw [List.map_cons, List.map_cons, h a (List.mem_cons_self a l),
      ih f g (fun q hq => h q (List.mem_cons_of_mem a hq))]

/-- One MERGE source row does not affect membership of rows of another
task_id. -/
theorem applyMerge_notouch (store : List Row) (a : Row) (x : String) (r : Row)
    (hne : a.task_id ≠ x) :
    (r ∈ applyMerge store a ∧ r.task_id = x ↔ r ∈ store ∧ r.task_id = x) := by
  rw [applyMerge]
  constructor
  · intro ⟨h1, h2⟩
    refine ⟨?_, h2⟩
    by_cases hany : (store.any (fun t => t.task_id == a.task_id)) = true
    · rw [if_pos hany] at h1
      rcases List.mem_map.mp h1 with ⟨t, ht, hft⟩
      by_cases hbeq : (t.task_id == a.task_id) = true
      · rw [if_pos hbeq] at hft
        exfalso
        apply hne
        rw [← h2, ← hft]
        exact (beq_iff_eq.mp hbeq).symm ▸ rfl
      · rw [if_neg hbeq] at hft
        exact hft ▸ ht
    · rw [if_neg hany] at h1
      rcases List.mem_append.mp h1 with h | h
      · exact h
      · exfalso
        apply hne
        rw [← h2]
        have : r = a := by simpa using h
        rw [this]
  · intro ⟨h1, h2⟩
    refine ⟨?_, h2⟩
    by_cases hany : (store.any (fun t => t.task_id == a.task_id)) = true
    · rw [if_pos hany]
      have hbeq : (r.task_id == a.task_id) = false := by
        rw [beq_eq_false_iff_ne]
        intro he
        exact hne (he ▸ h2)
      have := List.mem_map_of_mem
        (fun t => if t.task_id == a.task_id then updateRow t a else t) h1
      simpa [hbeq] using this
    · rw [if_neg hany]
      exact List.mem_append_left _ h1

/-- Folding source rows of other task_ids does not affect membership of rows
of task_id x. -/
theorem fold_notouch :
    ∀ (l : List Row) (store : List Row) (x : String) (r : Row),
      (∀ q ∈ l, q.task_id ≠ x) →
      (r ∈ l.foldl applyMerge store ∧ r.task_id = x ↔ r ∈ store ∧ r.task_id = x) := by
  intro l
  induction l with
  | nil => intro store x r _; rw [List.foldl_nil]
  | cons a l ih =>
    intro store x r hne
    rw [List.foldl_cons]
    rw [ih (applyMerge store a) x r (fun q hq => hne q (List.mem_cons_of_mem a hq))]
    exact applyMerge_notouch store a x r (hne a (List.mem_cons_self a l))

/-- After a fold whose source task_ids are distinct, every row carrying the
task_id of source row s is either an update of some prior row by s or s
itself. -/
theorem run1_mem_shape :
    ∀ (l : List Row) (store : List Row) (s r : Row),
      ((l.map (fun q => q.task_id)).Nodup) → s ∈ l →
      r ∈ l.foldl applyMerge store → r.task_id = s.task_id →
      (∃ t, r = updateRow t s) ∨ r = s := by
  intro l
  induction l with
  | nil => intro store s r _ hs; simp at hs
  | cons a l ih =>
    intro store s r hnd hs hr hrt
    rw [List.foldl_cons] at hr
    rcases List.mem_cons.mp hs with hsa | hsl
    · subst hsa
      have hne : ∀ q ∈ l, q.task_id ≠ s.task_id := by
        intro q hq heq
        exact (List.nodup_cons.mp hnd).1 (List.mem_map.mpr ⟨q, hq, heq⟩)
      have htrans := (fold_notouch l (applyMerge store s) s.task_id r hne).mp ⟨hr, hrt⟩
      rcases htrans with ⟨hr2, _⟩
      rw [applyMerge] at hr2
      by_cases hany : (store.any (fun t => t.task_id == s.task_id)) = true
      · rw [if_pos hany] at hr2
        rcases List.mem_map.mp hr2 with ⟨t, _, hft⟩
        by_cases hbeq : (t.task_id == s.task_id) = true
        · rw [if_pos hbeq] at hft
          exact Or.inl ⟨t, hft.symm⟩
        · rw [if_neg hbeq] at hft
          exfalso
          apply hbeq
          rw [beq_iff_eq, hft]
          exact hrt
      · rw [if_neg hany] at hr2
        rcases List.mem_append.mp hr2 with h | h
        · exfalso
          apply hany
          exact List.any_eq_true.mpr ⟨r, h, beq_iff_eq.mpr hrt⟩
        · exact Or.inr (by simpa using h)
    · exact ih (applyMerge store a) s r (List.nodup_cons.mp hnd).2 hsl hr hrt

/-- A MERGE source row leaves some row of its task_id present. -/
theorem applyMerge_presence (store : List Row) (s : Row) :
    ∃ r ∈ applyMerge store s, r.task_id = s.task_id := by
  rw [applyMerge]
  by_cases hany : (store.any (fun t => t.task_id == s.task_id)) = true
  · rw [if_pos hany]
    rcases List.any_eq_true.mp hany with ⟨t, ht, hbeq⟩
    refine ⟨updateRow t s, ?_, beq_iff_eq.mp hbeq⟩
    have := List.mem_map_of_mem
      (fun q => if q.task_id == s.task_id then updateRow q s else q) ht
    simpa [hbeq] using this
  · rw [if_neg hany]
    exact ⟨s, List.mem_append_right _ (List.mem_cons_self s []), rfl⟩

/-- A MERGE source row preserves presence of every task_id. -/
theorem applyMerge_presence_mono (store : List Row) (s : Row) (x : String)
    (h : ∃ r ∈ store, r.task_id = x) : ∃ r ∈ applyMerge store s, r.task_id = x := by
  rcases h with ⟨r, hr, hrx⟩
  rw [applyMerge]
  by_cases hany : (store.any (fun t => t.task_id == s.task_id)) = true
  · rw [if_pos hany]
    by_cases hbeq : (r.task_id == s.task_id) = true
    · refine ⟨updateRow r s, ?_, hrx⟩
      have := List.mem_map_of_mem
        (fun q => if q.task_id == s.task_id then updateRow q s else q) hr
      simpa [hbeq] using this
    · refine ⟨r, ?_, hrx⟩
      have := List.mem_map_of_mem
        (fun q => if q.task_id == s.task_id then updateRow q s else q) hr
      simpa [hbeq] using this
  · rw [if_neg hany]
    exact ⟨r, List.mem_append_left _ hr, hrx⟩

/-- Folding MERGE source rows preserves presence of every task_id. -/
theorem fold_presence_mono :
    ∀ (l : List Row) (store : List Row) (x : String),
      (∃ r ∈ store, r.task_id = x) → ∃ r ∈ l.foldl applyMerge store, r.task_id = x := by
  intro l
  induction l with
  | nil => intro store x h; exact h
  | cons a l ih =>
    intro store x h
    rw [List.foldl_cons]
    exact ih (applyMerge store a) x (applyMerge_presence_mono store a x h)

/-- After the fold, every source row's task_id is present. -/
theorem fold_presence :
    ∀ (l : List Row) (store : List Row) (s : Row), s ∈ l →
      ∃ r ∈ l.foldl applyMerge store, r.task_id = s.task_id := by
  intro l
  induction l with
  | nil => intro store s hs; simp at hs
  | cons a l ih =>
    intro store s hs
    rw [List.foldl_cons]
    rcases List.mem_cons.mp hs with h | h
    · subst h
      exact fold_presence_mono l (applyMerge store s) s.task_id (applyMerge_presence store s)
    · exact ih (applyMerge store a) s h

/-! ## Helper lemmas for merge idempotence: the second run only restamps -/

/-- Folding restamped source rows over a store that already absorbed them
just restamps the rows of the touched task_ids. -/
theorem bump_fold (n : Nat) :
    ∀ (l : List Row) (S : List Row),
      (∀ s ∈ l, ∀ r ∈ S, r.task_id = s.task_id → updateRow r (setIns n s) = setIns n r) →
      (∀ s ∈ l, ∃ r ∈ S, r.task_id = s.task_id) →
      (l.map (setIns n)).foldl applyMerge S
        = S.map (fun r => if l.any (fun s => s.task_id == r.task_id) then setIns n r else r) := by
  intro l
  induction l with
  | nil =>
    intro S _ _
    simp
  | cons s l ih =>
    intro S habs hpres
    rw [List.map_cons, List.foldl_cons]
    have h1 : applyMerge S (setIns n s)
        = S.map (fun r => if r.task_id == s.task_id then setIns n r else r) := by
      rw [applyMerge]
      have hany : (S.any (fun t => t.task_id == (setIns n s).task_id)) = true := by
        rcases hpres s (List.mem_cons_self s l) with ⟨r, hr, hrt⟩
        refine List.any_eq_true.mpr ⟨r, hr, beq_iff_eq.mpr ?_⟩
        rw [setIns_task_id]
        exact hrt
      rw [if_pos hany]
      apply map_congr_mem
      intro t ht
      by_cases hbeq : (t.task_id == s.task_id) = true
      · have hcond : (t.task_id == (setIns n s).task_id) = true := by
          rw [setIns_task_id]; exact hbeq
        rw [if_pos hcond, if_pos hbeq]
        exact habs s (List.mem_cons_self s l) t ht (beq_iff_eq.mp hbeq)
      · have hcond : ¬(t.task_id == (setIns n s).task_id) = true := by
          rw [setIns_task_id]; exact hbeq
        rw [if_neg hcond, if_neg hbeq]
    rw [h1]
    have hgtid : ∀ r : Row,
        ((fun x => if x.task_id == s.task_id then setIns n x else x) r).task_id
          = r.task_id := by
      intro r
      by_cases hb : (r.task_id == s.task_id) = true
      · simp only [hb, if_true, setIns_task_id]
      · simp only [if_neg hb]
    have habs2 : ∀ s2 ∈ l,
        ∀ r2 ∈ S.map (fun x => if x.task_id == s.task_id then setIns n x else x),
        r2.task_id = s2.task_id → updateRow r2 (setIns n s2) = setIns n r2 := by
      intro s2 hs2 r2 hr2 hrt2
      rcases List.mem_map.mp hr2 with ⟨r, hr, hgr⟩
      by_cases hb : (r.task_id == s.task_id) = true
      · have hr2e : r2 = setIns n r := by rw [← hgr, if_pos hb]
        have hrt : r.task_id = s2.task_id := by
          rw [← setIns_task_id n r, ← hr2e]
          exact hrt2
        rw [hr2e, updateRow_setIns_target, setIns_setIns]
        exact habs s2 (List.mem_cons_of_mem s hs2) r hr hrt
      · have hr2e : r2 = r := by rw [← hgr, if_neg hb]
        rw [hr2e]
        rw [hr2e] at hrt2
        exact habs s2 (List.mem_cons_of_mem s hs2) r hr hrt2
    have hpres2 : ∀ s2 ∈ l,
        ∃ r2 ∈ S.map (fun x => if x.task_id == s.task_id then setIns n x else x),
        r2.task_id = s2.task_id := by
      intro s2 hs2
      rcases hpres s2 (List.mem_cons_of_mem s hs2) with ⟨r, hr, hrt⟩
      refine ⟨(fun x => if x.task_id == s.task_id then setIns n x else x) r,
        List.mem_map_of_mem _ hr, ?_⟩
      rw [hgtid r]
      exact hrt
    rw [ih _ habs2 hpres2, List.map_map]
    apply map_congr_mem
    intro r _
    show (fun x => if l.any (fun q => q.task_id == x.task_id) then setIns n x else x)
        ((fun x => if x.task_id == s.task_id then setIns n x else x) r)
      = if (s :: l).any (fun q => q.task_id == r.task_id) then setIns n r else r
    by_cases hc1 : r.task_id = s.task_id
    · have hb1 : (r.task_id == s.task_id) = true := beq_iff_eq.mpr hc1
      have hbs : (s.task_id == r.task_id) = true := beq_iff_eq.mpr hc1.symm
      simp only [hb1, if_true, List.any_cons, hbs, Bool.true_or, setIns_task_id]
      by_cases hc2 : (l.any (fun q => q.task_id == r.task_id)) = true
      · rw [if_pos hc2, setIns_setIns]
      · rw [if_neg hc2]
    · have hb1 : (r.task_id == s.task_id) = false := beq_eq_false_iff_ne.mpr hc1
      have hbs : (s.task_id == r.task_id) = false :=
        beq_eq_false_iff_ne.mpr (fun h => hc1 h.symm)
      simp only [hb1, Bool.false_eq_true, if_false, List.any_cons, hbs, Bool.false_or]

/-- The staging dedup fold does not depend on the staging timestamp when
every record carries modified_at. -/
theorem foldBest_indep (n1 n2 : Nat) :
    ∀ (l : List TaskRec), (∀ q ∈ l, q.modified_at.isSome) →
      ∀ acc : Option TaskRec, (∀ b, acc = some b → b.modified_at.isSome) →
      l.foldl (fun acc r =>
        match acc with
        | none => some r
        | some bb => if mergeKey n1 bb < mergeKey n1 r then some r else some bb) acc
      = l.foldl (fun acc r =>
        match acc with
        | none => some r
        | some bb => if mergeKey n2 bb < mergeKey n2 r then some r else some bb) acc := by
  intro l
  induction l with
  | nil => intro _ acc _; rfl
  | cons r l ih =>
    intro hl acc hacc
    rw [List.foldl_cons, List.foldl_cons]
    have hkey : ∀ q : TaskRec, q.modified_at.isSome → mergeKey n1 q = mergeKey n2 q := by
      intro q hq
      cases hmq : q.modified_at with
      | none => rw [hmq] at hq; simp at hq
      | some m => simp [mergeKey, hmq]
    have hr : r.modified_at.isSome := hl r (List.mem_cons_self r l)
    cases acc with
    | none =>
      show List.foldl (fun acc r =>
          match acc with
          | none => some r
          | some bb => if mergeKey n1 bb < mergeKey n1 r then some r else some bb) (some r) l
        = List.foldl (fun acc r =>
          match acc with
          | none => some r
          | some bb => if mergeKey n2 bb < mergeKey n2 r then some r else some bb) (some r) l
      refine ih (fun q hq => hl q (List.mem_cons_of_mem r hq)) (some r) ?_
      intro b hb
      rw [← Option.some.inj hb]
      exact hr
    | some bb =>
      have hbb : bb.modified_at.isSome := hacc bb rfl
      have hstep : (if mergeKey n1 bb < mergeKey n1 r then some r else some bb)
          = (if mergeKey n2 bb < mergeKey n2 r then some r else some bb) := by
        rw [hkey bb hbb, hkey r hr]
      show List.foldl (fun acc r =>
          match acc with
          | none => some r
          | some bb => if mergeKey n1 bb < mergeKey n1 r then some r else some bb)
          (if mergeKey n1 bb < mergeKey n1 r then some r else some bb) l
        = List.foldl (fun acc r =>
          match acc with
          | none => some r
          | some bb => if mergeKey n2 bb < mergeKey n2 r then some r else some bb)
          (if mergeKey n2 bb < mergeKey n2 r then some r else some bb) l
      rw [hstep]
      refine ih (fun q hq => hl q (List.mem_cons_of_mem r hq)) _ ?_
      intro b hb
      by_cases hlt : mergeKey n2 bb < mergeKey n2 r
      · rw [if_pos hlt] at hb
        rw [← Option.some.inj hb]
        exact hr
      · rw [if_neg hlt] at hb
        rw [← Option.some.inj hb]
        exact hbb

/-- bestFor is timestamp-independent on fully timestamped batches. -/
theorem bestFor_indep (n1 n2 : Nat) (batch : List TaskRec) (tid : String)
    (hm : ∀ b ∈ batch, b.modified_at.isSome) :
    bestFor n1 batch tid = bestFor n2 batch tid := by
  rw [bestFor, bestFor]
  apply foldBest_indep n1 n2
  · intro q hq
    exact hm q (List.mem_filter.mp hq).1
  · intro b hb
    exact Option.noConfusion hb

/-- The second staging relation is the first one restamped. -/
theorem src_shift (batch : List TaskRec) (t1 t2 : Nat)
    (hm : ∀ b ∈ batch, b.modified_at.isSome) :
    stagedMergeSource t2 batch = (stagedMergeSource t1 batch).map (setIns t2) := by
  rw [stagedMergeSource, stagedMergeSource, List.map_filterMap]
  have hfun : (fun tid => (bestFor t2 batch tid).map (toRow t2))
      = fun tid => ((bestFor t1 batch tid).map (toRow t1)).map (setIns t2) := by
    funext tid
    rw [bestFor_indep t2 t1 batch tid hm, Option.map_map]
    have : setIns t2 ∘ toRow t1 = toRow t2 := by
      funext b
      exact setIns_toRow t1 t2 b
    rw [this]
  rw [hfun]

/-- The staged source rows carry pairwise distinct task_ids. -/
theorem filterMap_tids_nodup :
    ∀ (L : List String) (f : String → Option Row), L.Nodup →
      (∀ t b, f t = some b → b.task_id = t) →
      (((L.filterMap f).map (fun r => r.task_id)).Nodup) := by
  intro L
  induction L with
  | nil => intro f _ _; simp
  | cons t L ih =>
    intro f hnd hf
    rcases List.nodup_cons.mp hnd with ⟨htL, hndL⟩
    rw [List.filterMap_cons]
    cases hft : f t with
    | none => exact ih f hndL hf
    | some b =>
      rw [List.map_cons]
      refine List.nodup_cons.mpr ⟨?_, ih f hndL hf⟩
      intro hmem
      rcases List.mem_map.mp hmem with ⟨r, hr, hrt⟩
      rcases List.mem_filterMap.mp hr with ⟨t2, ht2, hft2⟩
      have : t2 = t := by
        rw [← hf t2 r hft2, hrt, hf t b hft]
      exact htL (this ▸ ht2)

/-- Instance of the above for stagedMergeSource. -/
theorem staged_tids_nodup (now : Nat) (batch : List TaskRec) :
    (((stagedMergeSource now batch).map (fun r => r.task_id)).Nodup) := by
  rw [stagedMergeSource]
  apply filterMap_tids_nodup
  · rw [firstOccs]
    exact nodup_firstOccsAux _ _
  · intro t b hf
    rcases Option.map_eq_some'.mp hf with ⟨q, hq, hqb⟩
    rw [← hqb]
    exact (bestFor_mem now batch t q hq).2

/-- One MERGE source row preserves uniqueness of task_ids. -/
theorem applyMerge_uniq (store : List Row) (s : Row) (h : uniqueTids store) :
    uniqueTids (applyMerge store s) := by
  rw [applyMerge]
  by_cases hany : (store.any (fun t => t.task_id == s.task_id)) = true
  · rw [if_pos hany]
    rw [uniqueTids, List.map_map]
    have : ((fun r => r.task_id) ∘
        fun t => if t.task_id == s.task_id then updateRow t s else t)
        = fun t : Row => t.task_id := by
      funext t
      by_cases hb : (t.task_id == s.task_id) = true
      · simp [Function.comp, hb, updateRow]
      · simp [Function.comp, hb]
    rw [this]
    exact h
  · rw [if_neg hany]
    rw [uniqueTids, List.map_append]
    rw [List.nodup_append]
    refine ⟨h, by simp, ?_⟩
    intro x hx hxs
    have hxe : x = s.task_id := by simpa using hxs
    rcases List.mem_map.mp hx with ⟨t, ht, htx⟩
    apply hany
    exact List.any_eq_true.mpr ⟨t, ht, beq_iff_eq.mpr (htx.trans hxe)⟩

/-- Folding MERGE source rows preserves uniqueness of task_ids. -/
theorem fold_uniq :
    ∀ (l : List Row) (store : List Row), uniqueTids store →
      uniqueTids (l.foldl applyMerge store) := by
  intro l
  induction l with
  | nil => intro store h; exact h
  | cons a l ih =>
    intro store h
    rw [List.foldl_cons]
    exact ih (applyMerge store a) (applyMerge_uniq store a h)

/-- The upsert preserves uniqueness of task_ids. -/
theorem upsert_uniq (store : List Row) (batch : List TaskRec) (now : Nat)
    (h : uniqueTids store) : uniqueTids (upsert_tasks_via_merge store batch now) :=
  fold_uniq _ store h

/-- Filter commutes with a row map preserving the predicate. -/
theorem filter_map_comm (p : Row → Bool) (F : Row → Row) (hp : ∀ r, p (F r) = p r) :
    ∀ (S : List Row), (S.map F).filter p = (S.filter p).map F := by
  intro S
  induction S with
  | nil => rfl
  | cons a S ih =>
    rw [List.map_cons, List.filter_cons, List.filter_cons]
    cases h : p a with
    | false => rw [hp a, h]; simpa using ih
    | true => rw [hp a, h]; simpa using ih

/-- Under unique task_ids a per-task filter keeps at most one row. -/
theorem filter_tid_len :
    ∀ (S : List Row) (x : String), ((S.map (fun r => r.task_id)).Nodup) →
      (S.filter (fun r => r.task_id == x)).length ≤ 1 := by
  intro S
  induction S with
  | nil => intro x _; simp
  | cons a S ih =>
    intro x hnd
    rcases List.nodup_cons.mp hnd with ⟨ha, hndS⟩
    rw [List.filter_cons]
    cases hb : (a.task_id == x) with
    | false => simpa using ih x hndS
    | true =>
      have hnil : S.filter (fun r => r.task_id == x) = [] := by
        refine List.filter_eq_nil_iff.mpr ?_
        intro r hr hrb
        apply ha
        refine List.mem_map.mpr ⟨r, hr, ?_⟩
        rw [beq_iff_eq.mp hrb, ← beq_iff_eq.mp hb]
      simp [hnil]

/-- A view with restamped rows projects, modulo inserted_at, as before. -/
theorem view_bump (S : List Row) (F : Row → Row) (hU : uniqueTids S)
    (hFtid : ∀ r, (F r).task_id = r.task_id)
    (hFcomp : ∀ r, (F r).completed_at = r.completed_at)
    (hFview : ∀ r, eraseIns (toViewRow (F r)) = eraseIns (toViewRow r)) :
    (v_unique_tasks (S.map F)).map eraseIns = (v_unique_tasks S).map eraseIns := by
  have hcomp : completedRows (S.map F) = (completedRows S).map F := by
    rw [completedRows, completedRows]
    exact filter_map_comm _ F (fun r => by rw [hFcomp]) S
  have htids : (((completedRows S).map F).map (fun r => r.task_id))
      = (completedRows S).map (fun r => r.task_id) := by
    rw [List.map_map]
    exact map_congr_mem _ _ _ (fun r _ => hFtid r)
  have hnodup : (((completedRows S).map (fun r => r.task_id)).Nodup) := by
    refine List.Nodup.sublist ?_ hU
    exact List.Sublist.map _ (List.filter_sublist S)
  have hlatest : ∀ t, (latestFor (S.map F) t).map (fun r => eraseIns (toViewRow r))
      = (latestFor S t).map (fun r => eraseIns (toViewRow r)) := by
    intro t
    rw [latestFor, latestFor, hcomp]
    rw [filter_map_comm _ F (fun r => by rw [hFtid]) (completedRows S)]
    have hlen := filter_tid_len (completedRows S) t hnodup
    cases hg : (completedRows S).filter (fun r => r.task_id == t) with
    | nil => rfl
    | cons q g2 =>
      cases g2 with
      | nil =>
        rw [List.map_cons, List.map_nil, List.foldl_cons, List.foldl_cons,
          List.foldl_nil, List.foldl_nil]
        rw [show pickTop none (F q) = some (F q) from rfl,
          show pickTop none q = some q from rfl]
        show some (eraseIns (toViewRow (F q))) = some (eraseIns (toViewRow q))
        exact congrArg some (hFview q)
      | cons q2 g3 =>
        rw [hg] at hlen
        simp at hlen
  rw [v_unique_tasks, v_unique_tasks, hcomp, htids]
  rw [List.map_filterMap, List.map_filterMap]
  have hfun : (fun t => ((latestFor (S.map F) t).map toViewRow).map eraseIns)
      = fun t => ((latestFor S t).map toViewRow).map eraseIns := by
    funext t
    rw [Option.map_map, Option.map_map]
    have h1 : eraseIns ∘ toViewRow = fun r => eraseIns (toViewRow r) := rfl
    rw [h1]
    exact hlatest t
  rw [hfun]

/-- Restamping inserted_at does not change the view projection modulo
inserted_at. -/
theorem erase_view_setIns (n : Nat) (r : Row) :
    eraseIns (toViewRow (setIns n r)) = eraseIns (toViewRow r) := rfl

/-- On a fully timestamped batch, the second upsert run only restamps the
rows of the task_ids the batch touches. -/
theorem run2_store (store : List Row) (batch : List TaskRec) (t1 t2 : Nat)
    (hm : ∀ b ∈ batch, b.modified_at.isSome) :
    upsert_tasks_via_merge (upsert_tasks_via_merge store batch t1) batch t2
      = (upsert_tasks_via_merge store batch t1).map
          (fun r => if (stagedMergeSource t1 batch).any (fun s => s.task_id == r.task_id)
            then setIns t2 r else r) := by
  have habs : ∀ s ∈ stagedMergeSource t1 batch,
      ∀ r ∈ upsert_tasks_via_merge store batch t1,
      r.task_id = s.task_id → updateRow r (setIns t2 s) = setIns t2 r := by
    intro s hs r hr hrt
    have hr2 : r ∈ (stagedMergeSource t1 batch).foldl applyMerge store := hr
    rcases run1_mem_shape (stagedMergeSource t1 batch) store s r
      (staged_tids_nodup t1 batch) hs hr2 hrt with ⟨t, ht⟩ | ht
    · rw [ht]; exact absorb_update t s t2
    · rw [ht]; exact absorb_self s t2
  have hpres : ∀ s ∈ stagedMergeSource t1 batch,
      ∃ r ∈ upsert_tasks_via_merge store batch t1, r.task_id = s.task_id := by
    intro s hs
    exact fold_presence (stagedMergeSource t1 batch) store s hs
  show (stagedMergeSource t2 batch).foldl applyMerge (upsert_tasks_via_merge store batch t1)
    = (upsert_tasks_via_merge store batch t1).map
        (fun r => if (stagedMergeSource t1 batch).any (fun s => s.task_id == r.task_id)
          then setIns t2 r else r)
  rw [src_shift batch t1 t2 hm]
  exact bump_fold t2 (stagedMergeSource t1 batch)
    (upsert_tasks_via_merge store batch t1) habs hpres

/-- Counterexample to C1 as stated: a batch holding two records of one task,
one of them without modified_at, makes the second run replace the view row
even modulo inserted_at, because the dedup key COALESCE(modified_at,
inserted_at) ranks the null-modified_at record differently under the later
staging timestamp. -/
theorem merge_rerun_changes_view :
    (v_unique_tasks (upsert_tasks_via_merge
        (upsert_tasks_via_merge [] c1batch 10) c1batch 30)).map eraseIns
      ≠ (v_unique_tasks (upsert_tasks_via_merge [] c1batch 10)).map eraseIns := by
  decide

/-- Claim C1 (amended): when every record of the batch carries modified_at,
re-running the staged merge with the identical batch leaves v_unique_tasks
unchanged aside from the inserted_at bookkeeping column, for every store
whose task_ids are unique. -/
theorem merge_idempotent_on_timestamped_batches (store : List Row) (batch : List TaskRec)
    (t1 t2 : Nat) (hU : uniqueTids store) (hm : ∀ b ∈ batch, b.modified_at.isSome) :
    (v_unique_tasks (upsert_tasks_via_merge
        (upsert_tasks_via_merge store batch t1) batch t2)).map eraseIns
      = (v_unique_tasks (upsert_tasks_via_merge store batch t1)).map eraseIns := by
  rw [run2_store store batch t1 t2 hm]
  refine view_bump _ _ (upsert_uniq store batch t1 hU) ?_ ?_ ?_
  · intro r
    show (if (stagedMergeSource t1 batch).any (fun s => s.task_id == r.task_id)
        then setIns t2 r else r).task_id = r.task_id
    by_cases h : ((stagedMergeSource t1 batch).any (fun s => s.task_id == r.task_id)) = true
    · rw [if_pos h]; rfl
    · rw [if_neg h]
  · intro r
    show (if (stagedMergeSource t1 batch).any (fun s => s.task_id == r.task_id)
        then setIns t2 r else r).completed_at = r.completed_at
    by_cases h : ((stagedMergeSource t1 batch).any (fun s => s.task_id == r.task_id)) = true
    · rw [if_pos h]; rfl
    · rw [if_neg h]
  · intro r
    show eraseIns (toViewRow (if (stagedMergeSource t1 batch).any
        (fun s => s.task_id == r.task_id) then setIns t2 r else r))
      = eraseIns (toViewRow r)
    by_cases h : ((stagedMergeSource t1 batch).any (fun s => s.task_id == r.task_id)) = true
    · rw [if_pos h]; exact erase_view_setIns t2 r
    · rw [if_neg h]

/-- Witness for the amended C1 at an empty store and a two-task batch whose
records both carry modified_at. -/
theorem merge_idempotent_on_timestamped_batches_witness :
    uniqueTids ([] : List Row) ∧ (∀ b ∈ c1goodBatch, b.modified_at.isSome) ∧
    (v_unique_tasks (upsert_tasks_via_merge
        (upsert_tasks_via_merge [] c1goodBatch 10) c1goodBatch 30)).map eraseIns
      = (v_unique_tasks (upsert_tasks_via_merge [] c1goodBatch 10)).map eraseIns :=
  ⟨List.nodup_nil, by decide,
    merge_idempotent_on_timestamped_batches [] c1goodBatch 10 30 List.nodup_nil (by decide)⟩
